import Mathlib

/-!
Shallow embedding of the authentication / decision layer of the
Unmasking-the-Voice repository.

Conventions used throughout:
* Python floats are modelled exactly.  Every float that flows through the
  decision layer is either a rational literal (`PyFloat.lit`), the value
  produced by `cosine_similarity` (`PyFloat.cosVal d sa sb`, denoting
  `d / (sqrt sa * sqrt sb)` where `d` is the dot product and `sa`, `sb` the
  summed squares of the two vectors), or `nan` (numpy's `0.0 / 0.0`).
* Embedding extraction by the external neural models
  (`_get_embedding` in `src/authentication_models/deepspeaker.py` and
  `xvectors.py`) is a provided primitive: it is passed in as a parameter
  `getEmb : String → Option (List ℚ)`; `none` models the exception-caught
  failure path of `_get_embedding`, which returns Python `None`.
* The callers of `cosine_similarity` always pass arrays of shape `(1, d)`
  (a single embedding row); the embedding models that single row as a
  `List ℚ`.  Numpy broadcasting along the last axis is modelled, including
  the size-1 broadcast case.
* Python exceptions are modelled with `Except PyErr`; distinct raise sites
  get distinct constructors.
-/

/-- Python exceptions raised by the embedded code paths, one constructor per
raise site (`ValueError` in `csi.py` / `attack.py`, and the errors numpy
itself raises inside `cosine_similarity`, `np.mean` and `np.convolve`). -/
inductive PyErr where
  /-- `ValueError("No speakers enrolled in the system")`, csi.py line 52. -/
  | emptyRoster
  /-- `ValueError(f"Speaker ... not found in dataset")`, attack.py line 136. -/
  | speakerNotFound
  /-- `ValueError(f"Not enough files for speaker ...")`, attack.py line 140. -/
  | notEnoughFiles
  /-- numpy broadcasting error from `a * b` on incompatible shapes. -/
  | npBroadcast
  /-- numpy error from `np.mean` applied to a ragged list of vectors. -/
  | npRaggedMean
  /-- numpy error from `np.convolve` applied to an empty array. -/
  | npEmptyConvolve
  /-- numpy `IndexError` from writing past the end of the impulse response. -/
  | npIndexOut
  /-- `ValueError` from `scipy.signal.butter`: a critical frequency must lie
  strictly between 0 and half the sampling rate. -/
  | scipyButterFreq
  deriving DecidableEq

/-- Exact model of the Python floats that flow through the decision layer:
rational literals, the exact value computed by `cosine_similarity`
(kept in the symbolic form `dot / (sqrt sa * sqrt sb)`), and `nan`. -/
inductive PyFloat where
  | lit (q : ℚ)
  | cosVal (d sa sb : ℚ)
  | nan
  deriving DecidableEq

/-- The exact real value of a modelled float; `nan` has none. -/
noncomputable def PyFloat.val? : PyFloat → Option ℝ
  | .lit q => some (q : ℝ)
  | .cosVal d sa sb => some ((d : ℝ) / (Real.sqrt (sa : ℝ) * Real.sqrt (sb : ℝ)))
  | .nan => none

/-- Decides `d1 / sqrt p1 > d2 / sqrt p2` (for `p1, p2 > 0`) by sign analysis
and squaring, so that the Python float comparison stays executable. -/
def cosGtCos (d1 p1 d2 p2 : ℚ) : Bool :=
  if 0 < d1 then (if 0 < d2 then decide (d2 ^ 2 * p1 < d1 ^ 2 * p2) else true)
  else if d1 = 0 then decide (d2 < 0)
  else if 0 ≤ d2 then false
  else decide (d1 ^ 2 * p2 < d2 ^ 2 * p1)

/-- Decides `d / (sqrt sa * sqrt sb) > t` (for `sa, sb > 0`) by sign analysis
and squaring. -/
def cosGtLit (d sa sb t : ℚ) : Bool :=
  if 0 ≤ t then decide (0 < d ∧ t ^ 2 * (sa * sb) < d ^ 2)
  else decide (0 ≤ d ∨ d ^ 2 < t ^ 2 * (sa * sb))

/-- Python `x > y` on modelled floats.  Any comparison with `nan` is `False`,
exactly as in Python. -/
def PyFloat.gtF : PyFloat → PyFloat → Bool
  | _, .nan => false
  | .nan, _ => false
  | .lit a, .lit b => decide (b < a)
  | .cosVal d sa sb, .lit t => cosGtLit d sa sb t
  | .lit t, .cosVal d sa sb => cosGtLit (-d) sa sb (-t)
  | .cosVal d1 a1 b1, .cosVal d2 a2 b2 => cosGtCos d1 (a1 * b1) d2 (a2 * b2)

/-- Sum of squares of a vector: the square of its L2 norm
(`np.linalg.norm(v) ** 2`). -/
def sumSq (a : List ℚ) : ℚ := (a.map (fun x => x * x)).sum

/-- Numpy elementwise product of two rows, with last-axis broadcasting:
equal lengths multiply pointwise, a length-1 row broadcasts against the
other, anything else raises a broadcasting error. -/
def npMulRow (a b : List ℚ) : Except PyErr (List ℚ) :=
  if a.length = b.length then .ok (List.zipWith (fun x y => x * y) a b)
  else
    match a, b with
    | [x], _ => .ok (b.map (fun y => x * y))
    | _, [y] => .ok (a.map (fun x => x * y))
    | _, _ => .error .npBroadcast

/-- Embedding of `cosine_similarity` (src/utils/helpers.py, lines 4-19) for a
single row of each input batch: `np.sum(a * b, axis=1)` divided by the
product of the two row norms.  There is no input validation in the source.
When both norms multiply to zero the numerator is necessarily zero as well,
so numpy's `0.0 / 0.0` yields `nan` (a returned value, not an exception);
a nonzero numerator over a zero denominator is impossible. -/
def cosine_similarity (a b : List ℚ) : Except PyErr PyFloat :=
  match npMulRow a b with
  | .error e => .error e
  | .ok prod =>
    let d := prod.sum
    let sa := sumSq a
    let sb := sumSq b
    if sa * sb = 0 then .ok .nan
    else .ok (.cosVal d sa sb)

/-- Pointwise sum of two rows (`numpy +`); lengths agree at every use site. -/
def vecAdd (x y : List ℚ) : List ℚ := List.zipWith (fun a b => a + b) x y

/-- Sum of a list of `d`-dimensional rows, starting from the zero row. -/
def vecSum (d : ℕ) (l : List (List ℚ)) : List ℚ :=
  l.foldl vecAdd (List.replicate d 0)

/-- Embedding of `np.mean(embeddings, axis=0)` over a list of rows: defined
only for a non-empty, non-ragged list (numpy raises otherwise). -/
def npMean (l : List (List ℚ)) : Option (List ℚ) :=
  match l with
  | [] => none
  | x :: _ =>
    if l.all (fun e => e.length = x.length) then
      some ((vecSum x.length l).map (fun q => q / (l.length : ℚ)))
    else none

/-- Mutable state of `DeepSpeakerVerification`
(src/authentication_models/deepspeaker.py): the configured threshold and the
single stored enrollment embedding.  `XVectorVerification`
(src/authentication_models/xvectors.py) has line-for-line identical
`enroll` / `verify` logic and is covered by the same embedding. -/
structure DeepSpeakerVerification where
  threshold : ℚ
  enrollment_embedding : Option (List ℚ)
  deriving DecidableEq

/-- Freshly constructed verifier (`__init__`): no enrollment data. -/
def DeepSpeakerVerification.init (threshold : ℚ) : DeepSpeakerVerification :=
  ⟨threshold, none⟩

/-- Embedding of `DeepSpeakerVerification.enroll` (deepspeaker.py lines
44-79): returns `False` on an empty file list, extracts embeddings dropping
failed samples, and on at least one success stores the mean embedding and
returns `True`; with zero successes it returns `False` leaving the previous
enrollment embedding untouched. -/
def DeepSpeakerVerification.enroll (getEmb : String → Option (List ℚ))
    (self : DeepSpeakerVerification) (wav_files : List String) :
    Except PyErr (DeepSpeakerVerification × Bool) :=
  if wav_files.isEmpty then .ok (self, false)
  else
    let embeddings := wav_files.filterMap getEmb
    if embeddings.isEmpty then .ok (self, false)
    else
      match npMean embeddings with
      | some m => .ok ({ self with enrollment_embedding := some m }, true)
      | none => .error .npRaggedMean

/-- Embedding of `DeepSpeakerVerification.verify` (deepspeaker.py lines
81-105): `(False, 0.0)` when no enrollment embedding is stored or the probe
embedding cannot be extracted; otherwise the cosine similarity of the probe
embedding against the stored embedding, thresholded strictly. -/
def DeepSpeakerVerification.verify (getEmb : String → Option (List ℚ))
    (self : DeepSpeakerVerification) (wav_file_path : String) :
    Except PyErr (Bool × PyFloat) :=
  match self.enrollment_embedding with
  | none => .ok (false, .lit 0)
  | some emb =>
    match getEmb wav_file_path with
    | none => .ok (false, .lit 0)
    | some test_embedding =>
      match cosine_similarity test_embedding emb with
      | .error e => .error e
      | .ok s => .ok (s.gtF (.lit self.threshold), s)

/-- Shared state of `ClosedSetIdentification` and `OpenSetIdentification`
(src/tasks/csi.py, src/tasks/osi.py): the roster dict mapping speaker id to
enrollment status (insertion-ordered, as Python dicts are), the wrapped
verifier (`SpeakerVerification` merely delegates to the backend), and the
task-level threshold. -/
structure TaskState where
  enrolled_speakers : List (String × Bool)
  verifier : DeepSpeakerVerification
  threshold : ℚ
  deriving DecidableEq

/-- Freshly constructed task (`__init__`): empty roster, fresh verifier,
with the verifier and the task sharing one threshold value. -/
def TaskState.init (threshold : ℚ) : TaskState :=
  ⟨[], DeepSpeakerVerification.init threshold, threshold⟩

/-- Python dict assignment `d[k] = v`: update in place if the key exists
(keeping its original position), else append at the end. -/
def dictSet : List (String × Bool) → String → Bool → List (String × Bool)
  | [], sid, b => [(sid, b)]
  | p :: rest, sid, b =>
    if p.1 = sid then (sid, b) :: rest else p :: dictSet rest sid b

/-- Embedding of `enroll_speaker` (csi.py lines 23-36, identical in osi.py):
delegates to the backend `enroll` and records the returned success flag in
the roster under the speaker id. -/
def enroll_speaker (getEmb : String → Option (List ℚ)) (st : TaskState)
    (speaker_id : String) (wav_files : List String) :
    Except PyErr (TaskState × Bool) :=
  match DeepSpeakerVerification.enroll getEmb st.verifier wav_files with
  | .error e => .error e
  | .ok (v, success) =>
      .ok ({ st with verifier := v,
                     enrolled_speakers := dictSet st.enrolled_speakers speaker_id success },
           success)

/-- Embedding of `OpenSetIdentification.identify` (osi.py lines 38-64): on an
empty roster it prints a message and returns `(None, 0.0)` normally; else it
runs one `verify` call and, when the comparison accepted and the score
strictly exceeds the task threshold, returns the first roster entry whose
status is successful, falling through to `(None, similarity)` otherwise. -/
def OpenSetIdentification.identify (getEmb : String → Option (List ℚ))
    (st : TaskState) (wav_file_path : String) :
    Except PyErr (Option String × PyFloat) :=
  if st.enrolled_speakers.isEmpty then .ok (none, .lit 0)
  else
    match DeepSpeakerVerification.verify getEmb st.verifier wav_file_path with
    | .error e => .error e
    | .ok (is_verified, similarity) =>
      if is_verified && similarity.gtF (.lit st.threshold) then
        match st.enrolled_speakers.find? (fun p => p.2) with
        | some p => .ok (some p.1, similarity)
        | none => .ok (none, similarity)
      else .ok (none, similarity)

/-- The best-match loop of `ClosedSetIdentification.identify` (csi.py lines
61-67): starting from `(None, -1.0)`, each enrolled entry whose (single,
shared) similarity beats the running best score becomes the best match. -/
def csiFold (similarity : PyFloat) (roster : List (String × Bool)) :
    Option String × PyFloat :=
  roster.foldl
    (fun best p => if p.2 && similarity.gtF best.2 then (some p.1, similarity) else best)
    (none, .lit (-1))

/-- Embedding of `ClosedSetIdentification.identify` (csi.py lines 38-76):
raises `ValueError` on an empty roster; otherwise runs one `verify` call,
applies the best-match loop, and falls back to the first roster key with
score `0.0` when the loop selected nobody. -/
def ClosedSetIdentification.identify (getEmb : String → Option (List ℚ))
    (st : TaskState) (wav_file_path : String) :
    Except PyErr (String × PyFloat) :=
  if st.enrolled_speakers.isEmpty then .error .emptyRoster
  else
    match DeepSpeakerVerification.verify getEmb st.verifier wav_file_path with
    | .error e => .error e
    | .ok (_, similarity) =>
      match csiFold similarity st.enrolled_speakers with
      | (some best_speaker, best_score) => .ok (best_speaker, best_score)
      | (none, _) =>
        match st.enrolled_speakers with
        | [] => .error .emptyRoster
        | p :: _ => .ok (p.1, .lit 0)

/-- Length of `np.convolve(a, v)` (full mode): `m + k - 1`; numpy raises a
`ValueError` when either input is empty. -/
def npConvolveLen (m k : ℕ) : Except PyErr ℕ :=
  if m = 0 ∨ k = 0 then .error .npEmptyConvolve else .ok (m + k - 1)

/-- The default reflection delays of `AirEnvironmentSimulator.__init__`
(over_the_air_simulation.py lines 22-26), in seconds. -/
def defaultReverbDelays : List ℚ := [3/100, 6/100, 1/10]

/-- Output length of `AirEnvironmentSimulator.simulate`
(over_the_air_simulation.py lines 31-67) on an `n`-sample buffer at sample
rate `sr`, for a configured lowpass cutoff `lowpass_freq` (default 4000 Hz).
The impulse response is `np.zeros(sr)` with writes at index 0 and at
`int(delay * sr)` for each (nonnegative) configured delay — an `IndexError`
if any such index reaches `sr`; the audio is convolved with it and truncated
to the first `n` samples; the Gaussian noise vector has length `n`; then
`scipy.signal.butter(filter_order, lowpass_freq, fs=sr)` validates its
critical frequency — a `ValueError` unless `0 < lowpass_freq < sr / 2` —
and `scipy.signal.sosfilt` preserves length. -/
def airSimulateLen (reverb_delays : List ℚ) (lowpass_freq : ℚ) (n sr : ℕ) :
    Except PyErr ℕ :=
  if sr = 0 then .error .npIndexOut
  else if reverb_delays.any (fun d => sr ≤ (⌊d * (sr : ℚ)⌋).toNat) then .error .npIndexOut
  else
    match npConvolveLen n sr with
    | .error e => .error e
    | .ok convLen =>
      if 0 < lowpass_freq ∧ lowpass_freq < (sr : ℚ) / 2 then .ok (min convLen n)
      else .error .scipyButterFreq

/-- Environment configuration of the transmission-line simulator
(over_the_line_simulation.py lines 11-18). -/
structure EnvironmentConfig where
  sample_rate : ℕ
  down_sample_rate : Option ℕ
  bandpass_freqs : Option (ℚ × ℚ)
  filter_order : ℕ
  deriving DecidableEq

/-- The predefined "phone" environment (over_the_line_simulation.py lines
33-39): 16 kHz audio, downsampled to 8 kHz, 300-3400 Hz bandpass, order 10.
The "voip" environment is identical. -/
def phoneConfig : EnvironmentConfig := ⟨16000, some 8000, some (300, 3400), 10⟩

/-- Output length of `librosa.resample` for an `n`-sample input: the number
of samples of the resampled signal is the ceiling of `n * target / orig`
(librosa's documented output-length contract for its resamplers). -/
def resampleLen (n orig target : ℕ) : ℕ :=
  Nat.ceil ((n * target : ℚ) / (orig : ℚ))

/-- Output length of `EnvironmentSimulator.simulate_environment`
(over_the_line_simulation.py lines 95-158) on an `n`-sample buffer already
in memory: the optional downsample / upsample round trip through
`librosa.resample`, then the optional bandpass filter, which
(`scipy.signal.sosfilt`) preserves length. -/
def simulate_environment_len (config : EnvironmentConfig) (n : ℕ) : ℕ :=
  let audio_up :=
    match config.down_sample_rate with
    | some dsr => resampleLen (resampleLen n config.sample_rate dsr) dsr config.sample_rate
    | none => n
  match config.bandpass_freqs with
  | some _ => audio_up
  | none => audio_up

/-- Sample-count configuration of `AttackConfig` (attack.py lines 18-29). -/
structure AttackConfig where
  num_enrollment_files : ℕ
  num_test_files : ℕ
  num_attack_files : ℕ
  deriving DecidableEq

/-- The externally observable calls `run_attack` makes after its
precondition checks: enrolling the target, testing a (possibly
channel-simulated) file, and synthesizing a clone. -/
inductive AttackEvent where
  | enrollCall (speaker_id : String) (wav_files : List String)
  | testCall (wav_file : String)
  | cloneCall (idx : ℕ)
  | attackTestCall (wav_file : String)
  deriving DecidableEq

/-- The result dict built by `run_attack` (attack.py lines 153-157):
per-file identification outcome and score for the baseline and attack
phases, plus the enrollment success flag. -/
structure AttackRunResult where
  enrollment_success : Bool
  real_test_results : List (String × Option String × PyFloat)
  attack_results : List (String × Option String × PyFloat)
  deriving DecidableEq

/-- Embedding of `AttackFramework.run_attack` (attack.py lines 119-218),
parameterized over the collaborating components: `filesMap` is the
dataset's `get_files()` mapping, `authEnroll` the authentication system's
`enroll_speaker` outcome, `authTest` the identify/verify outcome for a
prepared file, `cloneGen` the path of the synthesized attack file of each
iteration and `prepare` the optional channel simulation.  Returns the
ordered trace of component calls together with the result; the two
precondition failures raise before any component call, so their traces are
empty. -/
def run_attack (filesMap : List (String × List String)) (config : AttackConfig)
    (authEnroll : String → List String → Bool)
    (authTest : String → Option String × PyFloat)
    (cloneGen : ℕ → String) (prepare : String → String)
    (target_speaker_id : String) :
    List AttackEvent × Except PyErr AttackRunResult :=
  match filesMap.lookup target_speaker_id with
  | none => ([], .error .speakerNotFound)
  | some speaker_files =>
    if speaker_files.length < config.num_enrollment_files + config.num_test_files then
      ([], .error .notEnoughFiles)
    else
      let enrollment_files := speaker_files.take config.num_enrollment_files
      let test_files :=
        (speaker_files.drop config.num_enrollment_files).take config.num_test_files
      let enrollment_success := authEnroll target_speaker_id enrollment_files
      let realResults := test_files.map (fun f =>
        let r := authTest (prepare f); (f, r.1, r.2))
      let attackFiles := (List.range config.num_attack_files).map cloneGen
      let attackResults := attackFiles.map (fun f =>
        let r := authTest (prepare f); (f, r.1, r.2))
      (AttackEvent.enrollCall target_speaker_id enrollment_files ::
         (test_files.map AttackEvent.testCall ++
          (List.range config.num_attack_files).flatMap (fun i =>
            [AttackEvent.cloneCall i, AttackEvent.attackTestCall (cloneGen i)])),
       .ok ⟨enrollment_success, realResults, attackResults⟩)

/-- A sequence of `enroll_speaker` calls: each entry is the speaker id and
the sample list passed to one call. -/
def applyHistory (getEmb : String → Option (List ℚ)) :
    TaskState → List (String × List String) → Except PyErr TaskState
  | st, [] => .ok st
  | st, (sid, files) :: rest =>
    match enroll_speaker getEmb st sid files with
    | .error e => .error e
    | .ok (st2, _) => applyHistory getEmb st2 rest

/-- The embeddings extracted by the most recent successful enrollment of a
call history (an `enroll_speaker` call succeeds exactly when at least one of
its samples embeds). -/
def lastSuccessEmbeds (getEmb : String → Option (List ℚ)) :
    List (String × List String) → Option (List (List ℚ))
  | [] => none
  | (_, files) :: rest =>
    match lastSuccessEmbeds getEmb rest with
    | some es => some es
    | none =>
      if (files.filterMap getEmb).isEmpty then none
      else some (files.filterMap getEmb)

example : cosine_similarity [2] [2] = .ok (.cosVal 4 4 4) := by
  norm_num [cosine_similarity, npMulRow, sumSq]
example : cosine_similarity [0, 0] [1, 1] = .ok .nan := by
  norm_num [cosine_similarity, npMulRow, sumSq]
example : cosine_similarity [1, 2] [1, 2, 3] = .error .npBroadcast := by
  norm_num [cosine_similarity, npMulRow, sumSq]
example : cosine_similarity [2] [1, 2, 3] = .ok (.cosVal 12 4 14) := by
  norm_num [cosine_similarity, npMulRow, sumSq]
example : (PyFloat.cosVal 4 4 4).gtF (.lit (1/2)) = true := by
  norm_num [PyFloat.gtF, cosGtLit]
example : (PyFloat.cosVal 3 1 100).gtF (.lit (1/2)) = false := by
  norm_num [PyFloat.gtF, cosGtLit]

/-! ### Supporting lemmas -/

theorem dictSet_lookup (r : List (String × Bool)) (sid : String) (b : Bool) :
    (dictSet r sid b).lookup sid = some b := by
  induction r with
  | nil => simp [dictSet, List.lookup]
  | cons p rest ih =>
    by_cases h : p.1 = sid
    · simp [dictSet, h, List.lookup]
    · simp only [dictSet, if_neg h, List.lookup]
      have : (sid == p.1) = false := by
        simp [beq_eq_false_iff_ne]; exact fun hc => h hc.symm
      simp [this, ih]

theorem cosGtLit_antitone {d sa sb t1 t2 : ℚ} (hle : t1 ≤ t2)
    (h2 : cosGtLit d sa sb t2 = true) : cosGtLit d sa sb t1 = true := by
  unfold cosGtLit at h2 ⊢
  by_cases h01 : 0 ≤ t1 <;> by_cases h02 : 0 ≤ t2
  · simp only [if_pos h01, if_pos h02, decide_eq_true_eq] at h2 ⊢
    obtain ⟨hd, hlt⟩ := h2
    refine ⟨hd, ?_⟩
    have ht : t1 ^ 2 ≤ t2 ^ 2 := by nlinarith
    rcases le_or_lt 0 (sa * sb) with hP | hP
    · nlinarith
    · nlinarith
  · exact absurd (le_trans h01 hle) h02
  · simp only [if_pos h02, decide_eq_true_eq] at h2
    simp only [if_neg h01, decide_eq_true_eq]
    exact Or.inl (le_of_lt h2.1)
  · simp only [if_neg h01, if_neg h02, decide_eq_true_eq] at h2 ⊢
    rcases h2 with hd | hlt
    · exact Or.inl hd
    · right
      have hP : 0 < sa * sb := by nlinarith [sq_nonneg d, sq_nonneg t2]
      have ht : t2 ^ 2 ≤ t1 ^ 2 := by nlinarith
      nlinarith

theorem gtF_lit_antitone {s : PyFloat} {t1 t2 : ℚ} (hle : t1 ≤ t2)
    (htrue : s.gtF (.lit t2) = true) : s.gtF (.lit t1) = true := by
  cases s with
  | nan => simp [PyFloat.gtF] at htrue
  | lit q =>
    simp only [PyFloat.gtF, decide_eq_true_eq] at htrue ⊢
    linarith
  | cosVal d sa sb =>
    simp only [PyFloat.gtF] at htrue ⊢
    exact cosGtLit_antitone hle htrue

/-! ### Claim C1 -/

/-- Claim C1, amended: on an empty roster, `ClosedSetIdentification.identify`
does raise (a `ValueError`), but `OpenSetIdentification.identify` returns
`(None, 0.0)` normally, and `verify` with no stored enrollment returns
`(False, 0.0)` normally — neither of the latter raises an error. -/
theorem C1_theorem :
    (∀ (getEmb : String → Option (List ℚ)) (st : TaskState) (probe : String),
      st.enrolled_speakers = [] →
      ClosedSetIdentification.identify getEmb st probe = .error .emptyRoster ∧
      OpenSetIdentification.identify getEmb st probe = .ok (none, .lit 0)) ∧
    (∀ (getEmb : String → Option (List ℚ)) (v : DeepSpeakerVerification) (probe : String),
      v.enrollment_embedding = none →
      DeepSpeakerVerification.verify getEmb v probe = .ok (false, .lit 0)) := by
  constructor
  · intro getEmb st probe h
    constructor
    · simp [ClosedSetIdentification.identify, h]
    · simp [OpenSetIdentification.identify, h]
  · intro getEmb v probe h
    simp [DeepSpeakerVerification.verify, h]

/-- Claim C1, counterexample to the claim as stated: with an empty roster,
`OpenSetIdentification.identify` returns the normal result `(None, 0.0)`
instead of failing with an error. -/
theorem C1_counterexample :
    OpenSetIdentification.identify (fun _ => none) (TaskState.init (1/2)) "probe.wav"
      = .ok (none, .lit 0) ∧
    ∀ e : PyErr,
      OpenSetIdentification.identify (fun _ => none) (TaskState.init (1/2)) "probe.wav"
        ≠ .error e := by
  have h : OpenSetIdentification.identify (fun _ => none) (TaskState.init (1/2)) "probe.wav"
      = .ok (none, .lit 0) := by
    simp [OpenSetIdentification.identify, TaskState.init]
  exact ⟨h, fun e hc => by rw [h] at hc; cases hc⟩

/-- Claim C1, witness for the amended theorem at a concrete empty-roster
state. -/
theorem C1_witness :
    ClosedSetIdentification.identify (fun _ => none) (TaskState.init 0) "p.wav"
      = .error .emptyRoster ∧
    OpenSetIdentification.identify (fun _ => none) (TaskState.init 0) "p.wav"
      = .ok (none, .lit 0) ∧
    DeepSpeakerVerification.verify (fun _ => none) (DeepSpeakerVerification.init 0) "p.wav"
      = .ok (false, .lit 0) :=
  ⟨(C1_theorem.1 _ _ _ rfl).1, (C1_theorem.1 _ _ _ rfl).2, C1_theorem.2 _ _ _ rfl⟩

/-! ### Claim C5 -/

/-- Claim C5, amended: enrolling with zero usable samples does not raise any
error — `enroll_speaker` returns `False` — and the speaker is recorded in
the roster with a failed status (present, not omitted), while the verifier
state is left unchanged. -/
theorem C5_theorem (getEmb : String → Option (List ℚ)) (st : TaskState)
    (speaker_id : String) (wav_files : List String)
    (h : wav_files.filterMap getEmb = []) :
    enroll_speaker getEmb st speaker_id wav_files =
      .ok ({ st with enrolled_speakers := dictSet st.enrolled_speakers speaker_id false },
           false) ∧
    (dictSet st.enrolled_speakers speaker_id false).lookup speaker_id = some false := by
  refine ⟨?_, dictSet_lookup _ _ _⟩
  unfold enroll_speaker DeepSpeakerVerification.enroll
  by_cases hw : wav_files.isEmpty
  · simp [hw]
  · simp [hw, h]

/-- Claim C5, counterexample to the claim as stated: with a sample whose
embedding extraction fails, `enroll_speaker` returns the normal value
`False` — it raises no `EnrollmentError` — while recording the speaker with
a failed status. -/
theorem C5_counterexample :
    enroll_speaker (fun _ => none) (TaskState.init (1/2)) "alice" ["a.wav"]
      = .ok (⟨[("alice", false)], DeepSpeakerVerification.init (1/2), 1/2⟩, false) ∧
    ∀ e : PyErr,
      enroll_speaker (fun _ => none) (TaskState.init (1/2)) "alice" ["a.wav"] ≠ .error e := by
  have h : enroll_speaker (fun _ => none) (TaskState.init (1/2)) "alice" ["a.wav"]
      = .ok (⟨[("alice", false)], DeepSpeakerVerification.init (1/2), 1/2⟩, false) := by
    simp [enroll_speaker, DeepSpeakerVerification.enroll, TaskState.init, dictSet]
  exact ⟨h, fun e hc => by rw [h] at hc; cases hc⟩

/-- Claim C5, witness for the amended theorem at a concrete input. -/
theorem C5_witness :
    enroll_speaker (fun _ => none) (TaskState.init 0) "bob" ["x.wav", "y.wav"]
      = .ok ({ TaskState.init 0 with
                enrolled_speakers := dictSet (TaskState.init 0).enrolled_speakers "bob" false },
             false) ∧
    (dictSet (TaskState.init 0).enrolled_speakers "bob" false).lookup "bob" = some false :=
  C5_theorem _ _ _ _ rfl

/-! ### Claim C7 -/

/-- Claim C7: `run_attack` fails with the speaker-not-found error when the
target id is absent from the dataset mapping, and with the
insufficient-samples error when the speaker has fewer than
`num_enrollment_files + num_test_files` files; in both cases the trace of
component calls is empty, i.e. the failure happens before any enrollment or
testing. -/
theorem C7_theorem :
    (∀ (filesMap : List (String × List String)) (config : AttackConfig)
       (authEnroll : String → List String → Bool)
       (authTest : String → Option String × PyFloat)
       (cloneGen : ℕ → String) (prepare : String → String) (target : String),
      filesMap.lookup target = none →
      run_attack filesMap config authEnroll authTest cloneGen prepare target
        = ([], .error .speakerNotFound)) ∧
    (∀ (filesMap : List (String × List String)) (config : AttackConfig)
       (authEnroll : String → List String → Bool)
       (authTest : String → Option String × PyFloat)
       (cloneGen : ℕ → String) (prepare : String → String)
       (target : String) (speaker_files : List String),
      filesMap.lookup target = some speaker_files →
      speaker_files.length < config.num_enrollment_files + config.num_test_files →
      run_attack filesMap config authEnroll authTest cloneGen prepare target
        = ([], .error .notEnoughFiles)) := by
  constructor
  · intro filesMap config authEnroll authTest cloneGen prepare target h
    simp [run_attack, h]
  · intro filesMap config authEnroll authTest cloneGen prepare target speaker_files h hlt
    simp [run_attack, h, hlt]

/-- Claim C7, witness: the spec's end-to-end scenario — an unknown speaker
id, and a speaker with only 2 files against `enrollmentCount = 3`,
`testCount = 2`. -/
theorem C7_witness :
    run_attack [("id10001", ["f1.wav", "f2.wav"])] ⟨3, 2, 1⟩
        (fun _ _ => true) (fun _ => (none, .lit 0)) (fun _ => "atk.wav") id "ghost"
      = ([], .error .speakerNotFound) ∧
    run_attack [("id10001", ["f1.wav", "f2.wav"])] ⟨3, 2, 1⟩
        (fun _ _ => true) (fun _ => (none, .lit 0)) (fun _ => "atk.wav") id "id10001"
      = ([], .error .notEnoughFiles) :=
  ⟨C7_theorem.1 _ _ _ _ _ _ _ (by simp [List.lookup]),
   C7_theorem.2 _ _ _ _ _ _ _ ["f1.wav", "f2.wav"] (by simp [List.lookup]) (by norm_num)⟩

/-! ### Claim C8 -/

/-- Claim C8, amended: `cosine_similarity` performs no input validation.
On inputs whose norms multiply to zero it does not fail: numpy evaluates
`0.0 / 0.0` and the function returns `nan` as a normal value.  On rows of
mismatched dimensionality it raises numpy's broadcasting error (there is no
dedicated `InvalidInputError`), except that a length-1 row broadcasts
against any other length and produces a normal result. -/
theorem C8_theorem :
    (∀ a b : List ℚ, a.length = b.length → sumSq a * sumSq b = 0 →
      cosine_similarity a b = .ok .nan) ∧
    (∀ a b : List ℚ, a.length ≠ b.length → a.length ≠ 1 → b.length ≠ 1 →
      cosine_similarity a b = .error .npBroadcast) := by
  constructor
  · intro a b hlen hzero
    simp [cosine_similarity, npMulRow, hlen, hzero]
  · intro a b hne ha hb
    have hmul : npMulRow a b = .error .npBroadcast := by
      unfold npMulRow
      rw [if_neg hne]
      match a, b with
      | [], [] => exact absurd rfl hne
      | [], _ :: _ :: _ => rfl
      | _ :: _ :: _, [] => rfl
      | _ :: _ :: _, _ :: _ :: _ => rfl
      | [_], _ => exact absurd rfl ha
      | _ :: _ :: _, [_] => exact absurd rfl hb
      | [], [_] => exact absurd rfl hb
    simp [cosine_similarity, hmul]

/-- Claim C8, counterexample to the claim as stated: the zero vector against
`[1, 1]` has zero norm, yet `cosine_similarity` raises nothing — it returns
the normal value `nan`. -/
theorem C8_counterexample :
    cosine_similarity [0, 0] [1, 1] = .ok .nan ∧
    ∀ e : PyErr, cosine_similarity [0, 0] [1, 1] ≠ .error e := by
  have h : cosine_similarity [0, 0] [1, 1] = .ok .nan := by
    norm_num [cosine_similarity, npMulRow, sumSq]
  exact ⟨h, fun e hc => by rw [h] at hc; cases hc⟩

/-- Claim C8, witness for the amended theorem at concrete inputs. -/
theorem C8_witness :
    cosine_similarity [0, 0] [3, 4] = .ok .nan ∧
    cosine_similarity [1, 2] [1, 2, 3] = .error .npBroadcast :=
  ⟨C8_theorem.1 _ _ rfl (by norm_num [sumSq]),
   C8_theorem.2 _ _ (by norm_num) (by norm_num) (by norm_num)⟩

/-! ### Claim C9 -/

/-- Claim C9: threshold monotonicity of the verification decision.  For a
fixed stored profile and probe, the similarity score is unchanged by the
threshold, and if `verify` rejects at a threshold `t1` it also rejects at
every `t2 ≥ t1` — because the decision is exactly `score > threshold` and
raising the threshold can only turn an acceptance into a rejection. -/
theorem C9_theorem (getEmb : String → Option (List ℚ)) (e : Option (List ℚ))
    (probe : String) (t1 t2 : ℚ) (hle : t1 ≤ t2) (b1 : Bool) (s1 : PyFloat)
    (h1 : DeepSpeakerVerification.verify getEmb ⟨t1, e⟩ probe = .ok (b1, s1))
    (hrej : b1 = false) :
    DeepSpeakerVerification.verify getEmb ⟨t2, e⟩ probe = .ok (false, s1) := by
  unfold DeepSpeakerVerification.verify at h1 ⊢
  cases e with
  | none =>
    simp only [Except.ok.injEq, Prod.mk.injEq] at h1
    simp [h1.2]
  | some emb =>
    cases hg : getEmb probe with
    | none =>
      simp only [hg, Except.ok.injEq, Prod.mk.injEq] at h1
      simp [hg, h1.2]
    | some te =>
      simp only [hg] at h1 ⊢
      cases hc : cosine_similarity te emb with
      | error err => simp [hc] at h1
      | ok s =>
        simp only [hc, Except.ok.injEq, Prod.mk.injEq] at h1 ⊢
        obtain ⟨hb, hs⟩ := h1
        refine ⟨?_, hs⟩
        cases h2 : s.gtF (.lit t2) with
        | false => rfl
        | true =>
          have h3 := gtF_lit_antitone hle h2
          rw [hrej] at hb
          rw [h3] at hb
          simp at hb

/-- Claim C9, witness: a concrete profile and probe with similarity 1,
rejected at threshold 2 and hence also at threshold 3. -/
theorem C9_witness :
    DeepSpeakerVerification.verify (fun _ => some [1]) ⟨3, some [1]⟩ "p.wav"
      = .ok (false, .cosVal 1 1 1) := by
  have h1 : DeepSpeakerVerification.verify (fun _ => some [1]) ⟨2, some [1]⟩ "p.wav"
      = .ok (false, .cosVal 1 1 1) := by
    norm_num [DeepSpeakerVerification.verify, cosine_similarity, npMulRow, sumSq,
      PyFloat.gtF, cosGtLit]
  exact C9_theorem (fun _ => some [1]) (some [1]) "p.wav" 2 3 (by norm_num) false
    (.cosVal 1 1 1) h1 rfl

/-! ### Claim C2 -/

theorem isEmpty_false_of_ne_nil {α : Type} {l : List α} (h : l ≠ []) :
    l.isEmpty = false := by
  cases l with
  | nil => exact absurd rfl h
  | cons a l => rfl

/-- Claim C2, amended: on a non-empty roster, `OpenSetIdentification.identify`
propagates the score of the single `verify` call, and returns a speaker id
iff the comparison accepted, the score strictly exceeds the threshold, AND
some roster entry has a successful enrollment status — the id returned being
the first such entry; in every other case it returns `(None, score)` with
the observed score.  (The third conjunct is forced: a roster whose most
recent enrollment of each speaker failed satisfies the accept condition via
a stale embedding yet yields `None`.) -/
theorem C2_theorem (getEmb : String → Option (List ℚ)) (st : TaskState)
    (probe : String) (acc : Bool) (s : PyFloat)
    (hne : st.enrolled_speakers ≠ [])
    (hv : DeepSpeakerVerification.verify getEmb st.verifier probe = .ok (acc, s)) :
    (∀ sid : String,
      OpenSetIdentification.identify getEmb st probe = .ok (some sid, s) ↔
      acc = true ∧ s.gtF (.lit st.threshold) = true ∧
        st.enrolled_speakers.find? (fun p => p.2) = some (sid, true)) ∧
    ((acc = false ∨ s.gtF (.lit st.threshold) = false ∨
        st.enrolled_speakers.find? (fun p => p.2) = none) →
      OpenSetIdentification.identify getEmb st probe = .ok (none, s)) := by
  have hEmpty := isEmpty_false_of_ne_nil hne
  by_cases hcond : (acc && s.gtF (.lit st.threshold)) = true
  · obtain ⟨hacc, hgt⟩ := Bool.and_eq_true_iff.mp hcond
    cases hf : st.enrolled_speakers.find? (fun p => p.2) with
    | none =>
      have hid : OpenSetIdentification.identify getEmb st probe = .ok (none, s) := by
        simp [OpenSetIdentification.identify, hEmpty, hv, hcond, hf]
      refine ⟨fun sid => ?_, fun _ => hid⟩
      rw [hid]
      simp [hf]
    | some p =>
      obtain ⟨a, b⟩ := p
      have hp2 : b = true := by
        have h := List.find?_some hf
        simpa using h
      subst hp2
      have hid : OpenSetIdentification.identify getEmb st probe = .ok (some a, s) := by
        simp [OpenSetIdentification.identify, hEmpty, hv, hcond, hf]
      refine ⟨fun sid => ?_, fun habs => ?_⟩
      · rw [hid]
        constructor
        · intro h
          have h1 : a = sid := by simpa using h
          subst h1
          exact ⟨hacc, hgt, rfl⟩
        · rintro ⟨-, -, hfind⟩
          have h1 : a = sid := by simpa using hfind
          subst h1
          rfl
      · rcases habs with h | h | h
        · rw [hacc] at h; cases h
        · rw [hgt] at h; cases h
        · simp at h
  · have hid : OpenSetIdentification.identify getEmb st probe = .ok (none, s) := by
      simp only [OpenSetIdentification.identify, hEmpty, Bool.false_eq_true, if_false, hv]
      rw [if_neg hcond]
    refine ⟨fun sid => ?_, fun _ => hid⟩
    rw [hid]
    constructor
    · intro h; simp at h
    · rintro ⟨hacc, hgt, -⟩
      exact absurd (by rw [hacc, hgt]; rfl) hcond

/-- Claim C2, counterexample to the claim as stated: starting from a fresh
open-set task, enrolling speaker A successfully and then re-enrolling A with
an unusable sample leaves a stale embedding with every roster entry marked
failed.  A probe is then accepted with score strictly above the threshold,
yet `identify` returns `None` — refuting the claimed "if and only if". -/
theorem C2_counterexample :
    enroll_speaker (fun f => if f = "good.wav" then some [2] else none)
        (TaskState.init (1/2)) "A" ["good.wav"]
      = .ok (⟨[("A", true)], ⟨1/2, some [2]⟩, 1/2⟩, true) ∧
    enroll_speaker (fun f => if f = "good.wav" then some [2] else none)
        ⟨[("A", true)], ⟨1/2, some [2]⟩, 1/2⟩ "A" ["bad.wav"]
      = .ok (⟨[("A", false)], ⟨1/2, some [2]⟩, 1/2⟩, false) ∧
    DeepSpeakerVerification.verify (fun f => if f = "good.wav" then some [2] else none)
        (⟨1/2, some [2]⟩ : DeepSpeakerVerification) "good.wav"
      = .ok (true, .cosVal 4 4 4) ∧
    (PyFloat.cosVal 4 4 4).gtF (.lit (1/2)) = true ∧
    OpenSetIdentification.identify (fun f => if f = "good.wav" then some [2] else none)
        ⟨[("A", false)], ⟨1/2, some [2]⟩, 1/2⟩ "good.wav"
      = .ok (none, .cosVal 4 4 4) := by
  have hfmg : List.filterMap (fun f => if f = "good.wav" then some ([2] : List ℚ) else none)
      ["good.wav"] = [[2]] := by simp
  have hfmb : List.filterMap (fun f => if f = "good.wav" then some ([2] : List ℚ) else none)
      ["bad.wav"] = [] := by simp
  have hmean : npMean [[2]] = some [2] := by norm_num [npMean, vecSum, vecAdd]
  have hverify : DeepSpeakerVerification.verify
      (fun f => if f = "good.wav" then some [2] else none)
      (⟨1/2, some [2]⟩ : DeepSpeakerVerification) "good.wav"
      = .ok (true, .cosVal 4 4 4) := by
    have hcos : cosine_similarity [2] [2] = .ok (.cosVal 4 4 4) := by
      norm_num [cosine_similarity, npMulRow, sumSq]
    simp [DeepSpeakerVerification.verify, hcos]
    norm_num [PyFloat.gtF, cosGtLit]
  refine ⟨?_, ?_, hverify, ?_, ?_⟩
  · simp [enroll_speaker, DeepSpeakerVerification.enroll, TaskState.init,
      DeepSpeakerVerification.init, hfmg, hmean, dictSet]
  · simp [enroll_speaker, DeepSpeakerVerification.enroll, hfmb, dictSet]
  · norm_num [PyFloat.gtF, cosGtLit]
  · unfold OpenSetIdentification.identify
    rw [show (⟨[("A", false)], ⟨1/2, some [2]⟩, 1/2⟩ : TaskState).verifier
        = (⟨1/2, some [2]⟩ : DeepSpeakerVerification) from rfl]
    rw [hverify]
    norm_num [PyFloat.gtF, cosGtLit, List.find?]

/-- Claim C2, witness for the amended theorem: the spec's own scenario — a
probe whose similarity is exactly 0.3 against threshold 0.5 yields
`(None, 0.3)`. -/
theorem C2_witness :
    OpenSetIdentification.identify (fun _ => some [1, 0, 0, 0])
        ⟨[("A", true)], ⟨1/2, some [3, 9, 3, 1]⟩, 1/2⟩ "probe.wav"
      = .ok (none, .cosVal 3 1 100) := by
  have hv : DeepSpeakerVerification.verify (fun _ => some [1, 0, 0, 0])
      (⟨1/2, some [3, 9, 3, 1]⟩ : DeepSpeakerVerification) "probe.wav"
      = .ok (false, .cosVal 3 1 100) := by
    norm_num [DeepSpeakerVerification.verify, cosine_similarity, npMulRow, sumSq,
      PyFloat.gtF, cosGtLit]
  exact (C2_theorem (fun _ => some [1, 0, 0, 0])
      ⟨[("A", true)], ⟨1/2, some [3, 9, 3, 1]⟩, 1/2⟩ "probe.wav" false
      (.cosVal 3 1 100) (by simp) hv).2 (Or.inl rfl)

/-! ### Claim C4 -/

theorem vecAdd_right_comm (b x y : List ℚ) :
    vecAdd (vecAdd b x) y = vecAdd (vecAdd b y) x := by
  induction b generalizing x y with
  | nil => simp [vecAdd]
  | cons hb tb ih =>
    cases x with
    | nil => simp [vecAdd]
    | cons hx tx =>
      cases y with
      | nil => simp [vecAdd]
      | cons hy ty =>
        simp only [vecAdd, List.zipWith_cons_cons, List.cons.injEq] at ih ⊢
        refine ⟨by ring, ?_⟩
        have h := ih tx ty
        simpa [vecAdd] using h

instance : RightCommutative vecAdd := ⟨vecAdd_right_comm⟩

theorem vecAdd_getD (x y : List ℚ) (i : ℕ) (hx : i < x.length) (hy : i < y.length) :
    (vecAdd x y).getD i 0 = x.getD i 0 + y.getD i 0 := by
  induction x generalizing y i with
  | nil => simp at hx
  | cons a tx ih =>
    cases y with
    | nil => simp at hy
    | cons b ty =>
      cases i with
      | zero => simp [vecAdd]
      | succ n =>
        simp only [vecAdd, List.zipWith_cons_cons, List.getD_cons_succ]
        have h := ih ty n (by simpa using hx) (by simpa using hy)
        simpa [vecAdd] using h

theorem getD_replicate_zero (n i : ℕ) : (List.replicate n (0 : ℚ)).getD i 0 = 0 := by
  rcases Nat.lt_or_ge i n with h | h
  · rw [List.getD_eq_getElem _ _ (by simpa using h)]
    simp
  · rw [List.getD_eq_default _ _ (by simpa using h)]

theorem foldl_vecAdd_getD (l : List (List ℚ)) (d : ℕ) :
    ∀ acc : List ℚ, acc.length = d → (∀ e ∈ l, e.length = d) →
      (l.foldl vecAdd acc).length = d ∧
      ∀ i, i < d → (l.foldl vecAdd acc).getD i 0
          = acc.getD i 0 + (l.map (fun e => e.getD i 0)).sum := by
  induction l with
  | nil =>
    intro acc hacc _
    exact ⟨hacc, fun i _ => by simp⟩
  | cons e t ih =>
    intro acc hacc hall
    have he : e.length = d := hall e (by simp)
    have hlen : (vecAdd acc e).length = d := by
      simp [vecAdd, List.length_zipWith, hacc, he]
    obtain ⟨h1, h2⟩ := ih (vecAdd acc e) hlen (fun x hx => hall x (by simp [hx]))
    refine ⟨h1, fun i hi => ?_⟩
    rw [List.foldl_cons, h2 i hi,
      vecAdd_getD acc e i (by rw [hacc]; exact hi) (by rw [he]; exact hi)]
    simp [add_assoc]

theorem npMean_spec (l : List (List ℚ)) (d : ℕ) (hne : l ≠ [])
    (hall : ∀ e ∈ l, e.length = d) :
    ∃ m, npMean l = some m ∧ m.length = d ∧
      ∀ i, i < d → m.getD i 0
          = (l.map (fun e => e.getD i 0)).sum / (l.length : ℚ) := by
  cases l with
  | nil => exact absurd rfl hne
  | cons x t =>
    have hx : x.length = d := hall x (by simp)
    have hcond : (x :: t).all (fun e => decide (e.length = x.length)) = true := by
      simp only [List.all_eq_true, decide_eq_true_eq]
      intro e he
      rw [hall e he, hx]
    have hrep : (List.replicate x.length (0 : ℚ)).length = d := by simp [hx]
    obtain ⟨h1, h2⟩ := foldl_vecAdd_getD (x :: t) d (List.replicate x.length 0) hrep hall
    have hsome : npMean (x :: t)
        = some ((vecSum x.length (x :: t)).map
            (fun q => q / (((x :: t).length : ℕ) : ℚ))) := by
      simp [npMean, hcond]
    refine ⟨_, hsome, ?_, ?_⟩
    · simpa [vecSum] using h1
    · intro i hi
      have hiv : i < (vecSum x.length (x :: t)).length := by
        have : (vecSum x.length (x :: t)).length = d := by simpa [vecSum] using h1
        rw [this]; exact hi
      rw [List.getD_eq_getElem _ _ (by simpa using hiv)]
      rw [List.getElem_map]
      have hval : (vecSum x.length (x :: t))[i] = (vecSum x.length (x :: t)).getD i 0 :=
        (List.getD_eq_getElem _ _ hiv).symm
      rw [hval]
      have h2i := h2 i hi
      simp only [vecSum] at h2i
      rw [show (vecSum x.length (x :: t)).getD i 0
            = ((x :: t).foldl vecAdd (List.replicate x.length 0)).getD i 0 from rfl, h2i,
        getD_replicate_zero]
      rw [zero_add]

theorem npMean_perm {l₁ l₂ : List (List ℚ)} (d : ℕ) (hp : l₁.Perm l₂)
    (hall : ∀ e ∈ l₁, e.length = d) : npMean l₁ = npMean l₂ := by
  cases l₁ with
  | nil =>
    have h2 : l₂ = [] := hp.symm.eq_nil
    rw [h2]
  | cons x t =>
    cases l₂ with
    | nil => exact absurd hp.eq_nil (by simp)
    | cons y s =>
      have hx : x.length = d := hall x (by simp)
      have hy : y.length = d := hall y (hp.symm.subset (by simp))
      have hcond1 : (x :: t).all (fun e => decide (e.length = x.length)) = true := by
        simp only [List.all_eq_true, decide_eq_true_eq]
        intro e he
        rw [hall e he, hx]
      have hcond2 : (y :: s).all (fun e => decide (e.length = y.length)) = true := by
        simp only [List.all_eq_true, decide_eq_true_eq]
        intro e he
        rw [hall e (hp.symm.subset he), hy]
      have hsum : vecSum x.length (x :: t) = vecSum y.length (y :: s) := by
        simp only [vecSum, hx, hy]
        exact hp.foldl_eq _
      have hlen : ((x :: t).length : ℚ) = ((y :: s).length : ℚ) := by
        rw [hp.length_eq]
      simp only [npMean, hcond1, hcond2, if_pos, hsum, hlen]

/-- Claim C4: on a local-embedding backend, `enroll` with at least one
successfully embedded sample discards the failures, succeeds, and stores the
arithmetic mean of the successful embeddings as the profile; for three
samples with embeddings `ea, eb, ec` the profile is `(ea + eb + ec) / 3`
componentwise; and the stored profile is invariant under permuting the
sample list. -/
theorem C4_theorem :
    (∀ (getEmb : String → Option (List ℚ)) (self : DeepSpeakerVerification)
       (wav_files : List String) (d : ℕ),
      wav_files.filterMap getEmb ≠ [] →
      (∀ e ∈ wav_files.filterMap getEmb, e.length = d) →
      ∃ m, DeepSpeakerVerification.enroll getEmb self wav_files
          = .ok (⟨self.threshold, some m⟩, true) ∧ m.length = d ∧
        ∀ i, i < d → m.getD i 0
            = ((wav_files.filterMap getEmb).map (fun e => e.getD i 0)).sum
              / ((wav_files.filterMap getEmb).length : ℚ)) ∧
    (∀ (getEmb : String → Option (List ℚ)) (self : DeepSpeakerVerification)
       (a b c : String) (ea eb ec : List ℚ) (d : ℕ),
      getEmb a = some ea → getEmb b = some eb → getEmb c = some ec →
      ea.length = d → eb.length = d → ec.length = d →
      ∃ m, DeepSpeakerVerification.enroll getEmb self [a, b, c]
          = .ok (⟨self.threshold, some m⟩, true) ∧
        ∀ i, i < d → m.getD i 0
            = (ea.getD i 0 + eb.getD i 0 + ec.getD i 0) / 3) ∧
    (∀ (getEmb : String → Option (List ℚ)) (self : DeepSpeakerVerification)
       (files1 files2 : List String) (d : ℕ),
      files1.Perm files2 →
      (∀ e ∈ files1.filterMap getEmb, e.length = d) →
      DeepSpeakerVerification.enroll getEmb self files1
        = DeepSpeakerVerification.enroll getEmb self files2) := by
  have partA : ∀ (getEmb : String → Option (List ℚ)) (self : DeepSpeakerVerification)
      (wav_files : List String) (d : ℕ),
      wav_files.filterMap getEmb ≠ [] →
      (∀ e ∈ wav_files.filterMap getEmb, e.length = d) →
      ∃ m, DeepSpeakerVerification.enroll getEmb self wav_files
          = .ok (⟨self.threshold, some m⟩, true) ∧ m.length = d ∧
        ∀ i, i < d → m.getD i 0
            = ((wav_files.filterMap getEmb).map (fun e => e.getD i 0)).sum
              / ((wav_files.filterMap getEmb).length : ℚ) := by
    intro g self files d hne hall
    obtain ⟨m, hm, hlen, hget⟩ := npMean_spec (files.filterMap g) d hne hall
    refine ⟨m, ?_, hlen, hget⟩
    have hfe : files.isEmpty = false := by
      cases files with
      | nil => simp at hne
      | cons f t => rfl
    have hfme : (files.filterMap g).isEmpty = false := isEmpty_false_of_ne_nil hne
    simp [DeepSpeakerVerification.enroll, hfe, hfme, hm]
  refine ⟨partA, ?_, ?_⟩
  · intro g self a b c ea eb ec d ha hb hc hla hlb hlc
    have hfm : List.filterMap g [a, b, c] = [ea, eb, ec] := by simp [ha, hb, hc]
    have hne : List.filterMap g [a, b, c] ≠ [] := by rw [hfm]; simp
    have hall : ∀ e ∈ List.filterMap g [a, b, c], e.length = d := by
      rw [hfm]
      intro e he
      simp only [List.mem_cons, List.not_mem_nil, or_false] at he
      rcases he with rfl | rfl | rfl
      · exact hla
      · exact hlb
      · exact hlc
    obtain ⟨m, hm, hlen, hget⟩ := partA g self [a, b, c] d hne hall
    refine ⟨m, hm, fun i hi => ?_⟩
    rw [hget i hi, hfm]
    norm_num [add_assoc]
  · intro g self f1 f2 d hp hall
    have hperm : (f1.filterMap g).Perm (f2.filterMap g) := hp.filterMap g
    have hmean : npMean (f1.filterMap g) = npMean (f2.filterMap g) :=
      npMean_perm d hperm hall
    cases f1 with
    | nil =>
      have h2 : f2 = [] := hp.symm.eq_nil
      rw [h2]
    | cons x t =>
      have h2ne : f2 ≠ [] := by
        intro h
        rw [h] at hp
        exact absurd hp.eq_nil (by simp)
      have hpe : ((x :: t).filterMap g).isEmpty = (f2.filterMap g).isEmpty := by
        cases hfm : (x :: t).filterMap g with
        | nil =>
          have h0 : f2.filterMap g = [] := by
            rw [hfm] at hperm
            exact hperm.symm.eq_nil
          rw [h0]
        | cons z zs =>
          have h0 : f2.filterMap g ≠ [] := by
            intro h
            rw [hfm, h] at hperm
            exact absurd hperm.eq_nil (by simp)
          rw [isEmpty_false_of_ne_nil h0]
          rfl
      simp only [DeepSpeakerVerification.enroll,
        isEmpty_false_of_ne_nil (by simp : (x :: t : List String) ≠ []),
        isEmpty_false_of_ne_nil h2ne, Bool.false_eq_true, if_false]
      rw [hmean, hpe]

/-- Claim C4, witness: three samples with embeddings `[1,3]`, `[3,5]`,
`[5,1]` — the profile is their componentwise mean, and enrolling a permuted
sample list gives the identical result. -/
theorem C4_witness :
    (∃ m, DeepSpeakerVerification.enroll
        (fun f => if f = "a.wav" then some [1, 3] else if f = "b.wav" then some [3, 5]
          else if f = "c.wav" then some [5, 1] else none)
        ⟨0, none⟩ ["a.wav", "b.wav", "c.wav"]
        = .ok (⟨0, some m⟩, true) ∧
      ∀ i, i < 2 → m.getD i 0
          = (([1, 3] : List ℚ).getD i 0 + ([3, 5] : List ℚ).getD i 0
              + ([5, 1] : List ℚ).getD i 0) / 3) ∧
    DeepSpeakerVerification.enroll
        (fun f => if f = "a.wav" then some [1, 3] else if f = "b.wav" then some [3, 5]
          else if f = "c.wav" then some [5, 1] else none)
        ⟨0, none⟩ ["a.wav", "b.wav", "c.wav"]
      = DeepSpeakerVerification.enroll
        (fun f => if f = "a.wav" then some [1, 3] else if f = "b.wav" then some [3, 5]
          else if f = "c.wav" then some [5, 1] else none)
        ⟨0, none⟩ ["c.wav", "a.wav", "b.wav"] := by
  constructor
  · exact C4_theorem.2.1 _ ⟨0, none⟩ "a.wav" "b.wav" "c.wav" [1, 3] [3, 5] [5, 1] 2
      (by simp) (by simp) (by simp) rfl rfl rfl
  · refine C4_theorem.2.2 _ ⟨0, none⟩ ["a.wav", "b.wav", "c.wav"]
      ["c.wav", "a.wav", "b.wav"] 2
      (@List.perm_append_comm String ["a.wav", "b.wav"] ["c.wav"]) ?_
    intro e he
    simp only [List.filterMap] at he
    simp at he
    rcases he with rfl | rfl | rfl <;> rfl

/-! ### Claim C6 -/

theorem resampleLen_double (m : ℕ) : resampleLen m 8000 16000 = 2 * m := by
  unfold resampleLen
  rw [show ((m : ℚ) * ((16000 : ℕ) : ℚ)) / ((8000 : ℕ) : ℚ) = ((2 * m : ℕ) : ℚ) from by
    push_cast; ring]
  exact Nat.ceil_natCast _

theorem resampleLen_half (n : ℕ) : resampleLen n 16000 8000 = (n + 1) / 2 := by
  unfold resampleLen
  rw [show ((n : ℚ) * ((8000 : ℕ) : ℚ)) / ((16000 : ℕ) : ℚ) = (n : ℚ) / 2 from by
    push_cast; ring]
  rcases Nat.even_or_odd n with ⟨k, hk⟩ | ⟨k, hk⟩
  · subst hk
    rw [show ((k + k : ℕ) : ℚ) / 2 = ((k : ℕ) : ℚ) from by push_cast; ring]
    rw [Nat.ceil_natCast]
    omega
  · subst hk
    rw [show ((2 * k + 1 : ℕ) : ℚ) / 2 = (k : ℚ) + 1 / 2 from by push_cast; ring]
    have h2 : Nat.ceil ((k : ℚ) + 1 / 2) = k + 1 := by
      rw [Nat.ceil_eq_iff (by omega)]
      constructor
      · simp only [Nat.add_sub_cancel]
        linarith
      · push_cast
        linarith
    rw [h2]
    omega

theorem defaultDelays_index_lt (dq : ℚ) (sr : ℕ) (hsr : 1 ≤ sr)
    (h1 : dq < 1) : (⌊dq * (sr : ℚ)⌋).toNat < sr := by
  have hfl : ⌊dq * (sr : ℚ)⌋ < (sr : ℤ) := by
    rw [Int.floor_lt]
    have hsr0 : (0 : ℚ) < sr := by exact_mod_cast hsr
    calc dq * (sr : ℚ) < 1 * (sr : ℚ) := mul_lt_mul_of_pos_right h1 hsr0
    _ = ((sr : ℤ) : ℚ) := by push_cast; ring
  omega

/-- Claim C6, amended: the OpenAir simulator (default reflection delays and
default 4000 Hz lowpass cutoff) preserves the input length exactly for every
non-empty buffer at a sample rate ABOVE 8000 Hz; at 8000 Hz or below the
cutoff is not strictly below `sr / 2`, so `scipy.signal.butter` raises a
`ValueError` and `simulate` does not return at all.  And the
TransmissionLine round trip does NOT preserve length in general: for the
phone profile (16 kHz down to 8 kHz and back) the output has `n + n % 2`
samples — the input length rounded up to even — which equals the input
length only for even `n`. -/
theorem C6_theorem :
    (∀ n sr : ℕ, 1 ≤ n → 8000 < sr →
      airSimulateLen defaultReverbDelays 4000 n sr = .ok n) ∧
    (∀ n sr : ℕ, 1 ≤ n → 1 ≤ sr → sr ≤ 8000 →
      airSimulateLen defaultReverbDelays 4000 n sr = .error .scipyButterFreq) ∧
    (∀ n : ℕ, simulate_environment_len phoneConfig n = n + n % 2) := by
  refine ⟨?_, ?_, ?_⟩
  · intro n sr hn hsr8
    have hsr : 1 ≤ sr := by omega
    have hsr0 : sr ≠ 0 := by omega
    have hany : defaultReverbDelays.any
        (fun d => decide (sr ≤ (⌊d * (sr : ℚ)⌋).toNat)) = false := by
      have h1 := defaultDelays_index_lt (3/100) sr hsr (by norm_num)
      have h2 := defaultDelays_index_lt (6/100) sr hsr (by norm_num)
      have h3 := defaultDelays_index_lt (1/10) sr hsr (by norm_num)
      simp only [defaultReverbDelays, List.any_cons, List.any_nil, Bool.or_false,
        Bool.or_eq_false_iff, decide_eq_false_iff_not, not_le]
      exact ⟨h1, h2, h3⟩
    have hconv : npConvolveLen n sr = .ok (n + sr - 1) := by
      unfold npConvolveLen
      rw [if_neg (by omega)]
    have hfreq : (0 : ℚ) < 4000 ∧ (4000 : ℚ) < (sr : ℚ) / 2 := by
      refine ⟨by norm_num, ?_⟩
      have h : (8000 : ℚ) < (sr : ℚ) := by exact_mod_cast hsr8
      linarith
    unfold airSimulateLen
    rw [if_neg hsr0, hany]
    simp only [Bool.false_eq_true, if_false, hconv]
    rw [if_pos hfreq]
    have : min (n + sr - 1) n = n := by omega
    rw [this]
  · intro n sr hn hsr hsr8
    have hsr0 : sr ≠ 0 := by omega
    have hany : defaultReverbDelays.any
        (fun d => decide (sr ≤ (⌊d * (sr : ℚ)⌋).toNat)) = false := by
      have h1 := defaultDelays_index_lt (3/100) sr hsr (by norm_num)
      have h2 := defaultDelays_index_lt (6/100) sr hsr (by norm_num)
      have h3 := defaultDelays_index_lt (1/10) sr hsr (by norm_num)
      simp only [defaultReverbDelays, List.any_cons, List.any_nil, Bool.or_false,
        Bool.or_eq_false_iff, decide_eq_false_iff_not, not_le]
      exact ⟨h1, h2, h3⟩
    have hconv : npConvolveLen n sr = .ok (n + sr - 1) := by
      unfold npConvolveLen
      rw [if_neg (by omega)]
    have hfreq : ¬ ((0 : ℚ) < 4000 ∧ (4000 : ℚ) < (sr : ℚ) / 2) := by
      rintro ⟨-, h⟩
      have h8 : (sr : ℚ) ≤ 8000 := by exact_mod_cast hsr8
      linarith
    unfold airSimulateLen
    rw [if_neg hsr0, hany]
    simp only [Bool.false_eq_true, if_false, hconv]
    rw [if_neg hfreq]
  · intro n
    show resampleLen (resampleLen n 16000 8000) 8000 16000 = n + n % 2
    rw [resampleLen_half, resampleLen_double]
    omega

/-- Claim C6, counterexample to the claim as stated: a 5-sample buffer
through the phone-profile transmission-line simulation comes back with 6
samples — the downsample/upsample round trip does not preserve length. -/
theorem C6_counterexample :
    simulate_environment_len phoneConfig 5 = 6 ∧ (6 : ℕ) ≠ 5 := by
  constructor
  · show resampleLen (resampleLen 5 16000 8000) 8000 16000 = 6
    rw [resampleLen_half, resampleLen_double]
  · omega

/-- Claim C6, witness for the amended theorem at concrete lengths: a
160-sample buffer at 16 kHz keeps its length, the same buffer at 8 kHz hits
the butter cutoff `ValueError`, and a 4-sample phone round trip keeps its
(even) length. -/
theorem C6_witness :
    airSimulateLen defaultReverbDelays 4000 160 16000 = .ok 160 ∧
    airSimulateLen defaultReverbDelays 4000 160 8000 = .error .scipyButterFreq ∧
    simulate_environment_len phoneConfig 4 = 4 + 4 % 2 :=
  ⟨C6_theorem.1 160 16000 (by norm_num) (by norm_num),
   C6_theorem.2.1 160 8000 (by norm_num) (by norm_num) (by norm_num),
   C6_theorem.2.2 4⟩

/-! ### Claim C10 -/

theorem sumSq_cons (x : ℚ) (t : List ℚ) : sumSq (x :: t) = x * x + sumSq t := by
  simp [sumSq]

theorem sumSq_nonneg (a : List ℚ) : 0 ≤ sumSq a := by
  induction a with
  | nil => simp [sumSq]
  | cons x t ih =>
    rw [sumSq_cons]
    nlinarith [mul_self_nonneg x]

theorem sumSq_pos_of_mem {a : List ℚ} {x : ℚ} (hx : x ∈ a) (hne : x ≠ 0) :
    0 < sumSq a := by
  induction a with
  | nil => simp at hx
  | cons y t ih =>
    rw [sumSq_cons]
    rcases List.mem_cons.mp hx with rfl | hmem
    · nlinarith [sumSq_nonneg t, mul_self_pos.mpr hne]
    · nlinarith [ih hmem, mul_self_nonneg y]

theorem zipWith_mul_comm (a b : List ℚ) :
    List.zipWith (fun x y => x * y) a b = List.zipWith (fun x y => x * y) b a := by
  induction a generalizing b with
  | nil => cases b <;> simp
  | cons x t ih =>
    cases b with
    | nil => simp
    | cons y s => simp [ih, mul_comm]

theorem zipWith_mul_self_sum (a : List ℚ) :
    (List.zipWith (fun x y => x * y) a a).sum = sumSq a := by
  induction a with
  | nil => simp [sumSq]
  | cons x t ih =>
    simp only [List.zipWith_cons_cons, List.sum_cons, ih, sumSq_cons]

/-- Claim C10: on non-zero vectors of equal dimensionality the similarity is
symmetric — `sim(a,b)` and `sim(b,a)` have the same exact real value — and
`sim(a,a)` is exactly `1`, because the function computes the dot product
over the product of the L2 norms. -/
theorem C10_theorem (a b : List ℚ) (hlen : a.length = b.length)
    (ha : ∃ x ∈ a, x ≠ 0) (hb : ∃ y ∈ b, y ≠ 0) :
    ∃ vab vba vaa,
      cosine_similarity a b = .ok vab ∧
      cosine_similarity b a = .ok vba ∧
      PyFloat.val? vab = PyFloat.val? vba ∧ (PyFloat.val? vab).isSome ∧
      cosine_similarity a a = .ok vaa ∧ PyFloat.val? vaa = some 1 := by
  obtain ⟨x, hxa, hxne⟩ := ha
  obtain ⟨y, hyb, hyne⟩ := hb
  have hsa : 0 < sumSq a := sumSq_pos_of_mem hxa hxne
  have hsb : 0 < sumSq b := sumSq_pos_of_mem hyb hyne
  have hab : cosine_similarity a b
      = .ok (.cosVal (List.zipWith (fun u v => u * v) a b).sum (sumSq a) (sumSq b)) := by
    unfold cosine_similarity npMulRow
    rw [if_pos hlen]
    simp only []
    rw [if_neg (by positivity)]
  have hba : cosine_similarity b a
      = .ok (.cosVal (List.zipWith (fun u v => u * v) b a).sum (sumSq b) (sumSq a)) := by
    unfold cosine_similarity npMulRow
    rw [if_pos hlen.symm]
    simp only []
    rw [if_neg (by positivity)]
  have haa : cosine_similarity a a
      = .ok (.cosVal (List.zipWith (fun u v => u * v) a a).sum (sumSq a) (sumSq a)) := by
    unfold cosine_similarity npMulRow
    rw [if_pos rfl]
    simp only []
    rw [if_neg (by positivity)]
  refine ⟨_, _, _, hab, hba, ?_, ?_, haa, ?_⟩
  · simp only [PyFloat.val?, zipWith_mul_comm a b]
    rw [mul_comm (Real.sqrt (sumSq b : ℝ)) (Real.sqrt (sumSq a : ℝ))]
  · simp [PyFloat.val?]
  · simp only [PyFloat.val?, zipWith_mul_self_sum, Option.some.injEq]
    have h0 : (0 : ℝ) < (sumSq a : ℝ) := by exact_mod_cast hsa
    rw [Real.mul_self_sqrt (le_of_lt h0)]
    exact div_self (ne_of_gt h0)

/-- Claim C10, witness at the concrete vectors `[1, 0]` and `[0, 1]`. -/
theorem C10_witness :
    ∃ vab vba vaa,
      cosine_similarity [1, 0] [0, 1] = .ok vab ∧
      cosine_similarity [0, 1] [1, 0] = .ok vba ∧
      PyFloat.val? vab = PyFloat.val? vba ∧ (PyFloat.val? vab).isSome ∧
      cosine_similarity [1, 0] [1, 0] = .ok vaa ∧ PyFloat.val? vaa = some 1 :=
  C10_theorem [1, 0] [0, 1] rfl ⟨1, by simp, by norm_num⟩ ⟨1, by simp, by norm_num⟩

/-- Faithfulness of the executable comparison `cosGtLit`: on the values
`cosine_similarity` actually produces (positive summed squares) it decides
exactly the Python float comparison `score > threshold` over the exact
reals. -/
theorem cosGtLit_correct (d sa sb t : ℚ) (hsa : 0 < sa) (hsb : 0 < sb) :
    cosGtLit d sa sb t = true ↔
      (t : ℝ) < (d : ℝ) / (Real.sqrt (sa : ℝ) * Real.sqrt (sb : ℝ)) := by
  have hsa' : (0 : ℝ) < (sa : ℝ) := by exact_mod_cast hsa
  have hsb' : (0 : ℝ) < (sb : ℝ) := by exact_mod_cast hsb
  have hA : (0 : ℝ) < Real.sqrt (sa : ℝ) := Real.sqrt_pos.mpr hsa'
  have hB : (0 : ℝ) < Real.sqrt (sb : ℝ) := Real.sqrt_pos.mpr hsb'
  have hD : (0 : ℝ) < Real.sqrt (sa : ℝ) * Real.sqrt (sb : ℝ) := mul_pos hA hB
  have hDsq : (Real.sqrt (sa : ℝ) * Real.sqrt (sb : ℝ))
      * (Real.sqrt (sa : ℝ) * Real.sqrt (sb : ℝ)) = (sa : ℝ) * (sb : ℝ) := by
    rw [show (Real.sqrt (sa : ℝ) * Real.sqrt (sb : ℝ))
        * (Real.sqrt (sa : ℝ) * Real.sqrt (sb : ℝ))
        = (Real.sqrt (sa : ℝ) * Real.sqrt (sa : ℝ))
          * (Real.sqrt (sb : ℝ) * Real.sqrt (sb : ℝ)) from by ring]
    rw [Real.mul_self_sqrt (le_of_lt hsa'), Real.mul_self_sqrt (le_of_lt hsb')]
  rw [lt_div_iff₀ hD]
  unfold cosGtLit
  set D := Real.sqrt (sa : ℝ) * Real.sqrt (sb : ℝ) with hDdef
  by_cases h0 : 0 ≤ t
  · have h0' : (0 : ℝ) ≤ (t : ℝ) := by exact_mod_cast h0
    rw [if_pos h0, decide_eq_true_eq]
    constructor
    · rintro ⟨hd, hsq⟩
      have hd' : (0 : ℝ) < (d : ℝ) := by exact_mod_cast hd
      have hsq' : (t : ℝ) ^ 2 * ((sa : ℝ) * (sb : ℝ)) < (d : ℝ) ^ 2 := by
        exact_mod_cast hsq
      nlinarith [mul_nonneg h0' (le_of_lt hD)]
    · intro h
      have htD : (0 : ℝ) ≤ (t : ℝ) * D := mul_nonneg h0' (le_of_lt hD)
      have hd' : (0 : ℝ) < (d : ℝ) := lt_of_le_of_lt htD h
      refine ⟨by exact_mod_cast hd', ?_⟩
      have hsq' : (t : ℝ) ^ 2 * ((sa : ℝ) * (sb : ℝ)) < (d : ℝ) ^ 2 := by
        nlinarith
      exact_mod_cast hsq'
  · have h0' : (t : ℝ) < 0 := by
      have : t < 0 := lt_of_not_ge h0
      exact_mod_cast this
    rw [if_neg h0, decide_eq_true_eq]
    have htD : (t : ℝ) * D < 0 := mul_neg_of_neg_of_pos h0' hD
    constructor
    · rintro (hd | hsq)
      · have hd' : (0 : ℝ) ≤ (d : ℝ) := by exact_mod_cast hd
        linarith
      · have hsq' : (d : ℝ) ^ 2 < (t : ℝ) ^ 2 * ((sa : ℝ) * (sb : ℝ)) := by
          exact_mod_cast hsq
        by_cases hd : (0 : ℝ) ≤ (d : ℝ)
        · linarith
        · nlinarith
    · intro h
      by_cases hd : 0 ≤ d
      · exact Or.inl hd
      · right
        have hd' : (d : ℝ) < 0 := by
          have : d < 0 := lt_of_not_ge hd
          exact_mod_cast this
        have hsq' : (d : ℝ) ^ 2 < (t : ℝ) ^ 2 * ((sa : ℝ) * (sb : ℝ)) := by
          nlinarith
        exact_mod_cast hsq'

/-! ### Claim C3 -/

theorem gtF_irrefl (s : PyFloat) : s.gtF s = false := by
  cases s with
  | nan => rfl
  | lit q => simp [PyFloat.gtF]
  | cosVal d sa sb =>
    simp only [PyFloat.gtF, cosGtCos]
    by_cases h1 : 0 < d
    · simp [h1]
    · by_cases h2 : d = 0
      · simp [h1, h2]
      · have h3 : ¬ 0 ≤ d := by
          intro h
          rcases lt_or_eq_of_le h with h' | h'
          · exact h1 h'
          · exact h2 h'.symm
        simp [h1, h2, h3]

theorem csiFold_fixed (s : PyFloat) (r : List (String × Bool)) (z : String) :
    r.foldl (fun best p => if p.2 && s.gtF best.2 then (some p.1, s) else best)
        (some z, s) = (some z, s) := by
  induction r with
  | nil => rfl
  | cons p rest ih =>
    simp only [List.foldl_cons, gtF_irrefl, Bool.and_false, Bool.false_eq_true,
      if_false]
    exact ih

theorem csiFold_eq (s : PyFloat) (roster : List (String × Bool)) :
    csiFold s roster =
      match roster.find? (fun p => p.2) with
      | some p => if s.gtF (.lit (-1)) = true then (some p.1, s) else (none, .lit (-1))
      | none => (none, .lit (-1)) := by
  induction roster with
  | nil => rfl
  | cons p rest ih =>
    obtain ⟨a, b⟩ := p
    cases b with
    | false =>
      rw [List.find?_cons_of_neg _ (by simp)]
      rw [show csiFold s ((a, false) :: rest) = csiFold s rest from by
        simp [csiFold]]
      exact ih
    | true =>
      rw [List.find?_cons_of_pos _ (by simp)]
      show csiFold s ((a, true) :: rest)
          = if s.gtF (.lit (-1)) = true then (some a, s) else (none, .lit (-1))
      by_cases hg : s.gtF (.lit (-1)) = true
      · rw [if_pos hg]
        show List.foldl _ (if (true && s.gtF (.lit (-1))) = true then (some a, s)
            else (none, .lit (-1))) rest = (some a, s)
        rw [show (true && s.gtF (.lit (-1))) = true from by simp [hg]]
        rw [if_pos rfl]
        exact csiFold_fixed s rest a
      · rw [if_neg hg]
        show List.foldl _ (if (true && s.gtF (.lit (-1))) = true then (some a, s)
            else (none, .lit (-1))) rest = (none, .lit (-1))
        rw [show (true && s.gtF (.lit (-1))) = false from by
          simp only [Bool.true_and]
          exact Bool.not_eq_true _ ▸ (Bool.eq_false_iff.mpr (fun h => hg h))]
        simp only [Bool.false_eq_true, if_false]
        rw [show List.foldl
            (fun best p => if p.2 && s.gtF best.2 then (some p.1, s) else best)
            ((none : Option String), PyFloat.lit (-1)) rest = csiFold s rest from rfl, ih]
        cases rest.find? (fun p => p.2) with
        | none => rfl
        | some q =>
          show (if s.gtF (.lit (-1)) = true then (some q.1, s) else (none, .lit (-1)))
              = (none, .lit (-1))
          rw [if_neg hg]

theorem OSI_identify_score (getEmb : String → Option (List ℚ)) (st : TaskState)
    (probe : String) (acc : Bool) (s : PyFloat)
    (hne : st.enrolled_speakers ≠ [])
    (hv : DeepSpeakerVerification.verify getEmb st.verifier probe = .ok (acc, s)) :
    ∃ r, OpenSetIdentification.identify getEmb st probe = .ok (r, s) := by
  have hEmpty := isEmpty_false_of_ne_nil hne
  unfold OpenSetIdentification.identify
  simp only [hEmpty, Bool.false_eq_true, if_false, hv]
  split
  · split
    · exact ⟨_, rfl⟩
    · exact ⟨_, rfl⟩
  · exact ⟨_, rfl⟩

theorem CSI_identify_score (getEmb : String → Option (List ℚ)) (st : TaskState)
    (probe : String) (acc : Bool) (s : PyFloat)
    (hne : st.enrolled_speakers ≠ [])
    (hv : DeepSpeakerVerification.verify getEmb st.verifier probe = .ok (acc, s)) :
    ∃ rid, ClosedSetIdentification.identify getEmb st probe
        = .ok (rid, if st.enrolled_speakers.any (fun p => p.2) && s.gtF (.lit (-1))
            then s else .lit 0) := by
  have hEmpty := isEmpty_false_of_ne_nil hne
  unfold ClosedSetIdentification.identify
  simp only [hEmpty, Bool.false_eq_true, if_false, hv, csiFold_eq]
  cases hf : st.enrolled_speakers.find? (fun p => p.2) with
  | some p =>
    obtain ⟨a, b⟩ := p
    have hb : b = true := by simpa using List.find?_some hf
    subst hb
    have hany : st.enrolled_speakers.any (fun p => p.2) = true := by
      rw [List.any_eq_true]
      exact ⟨(a, true), List.mem_of_find?_eq_some hf, by simp⟩
    by_cases hg : s.gtF (.lit (-1)) = true
    · refine ⟨a, ?_⟩
      simp [hg, hany]
    · cases hros : st.enrolled_speakers with
      | nil => exact absurd hros hne
      | cons q qrest =>
        rw [hros] at hany
        refine ⟨q.1, ?_⟩
        simp [hg, hany]
  | none =>
    have hany : st.enrolled_speakers.any (fun p => p.2) = false := by
      rw [List.any_eq_false]
      intro x hx
      have h := List.find?_eq_none.mp hf x hx
      simpa using h
    cases hros : st.enrolled_speakers with
    | nil => exact absurd hros hne
    | cons q qrest =>
      rw [hros] at hany
      refine ⟨q.1, ?_⟩
      simp [hany]

theorem applyHistory_state (getEmb : String → Option (List ℚ)) :
    ∀ (h : List (String × List String)) (st st2 : TaskState),
      applyHistory getEmb st h = .ok st2 →
      st2.verifier.threshold = st.verifier.threshold ∧
      st2.threshold = st.threshold ∧
      st2.verifier.enrollment_embedding
        = (match lastSuccessEmbeds getEmb h with
           | some es => npMean es
           | none => st.verifier.enrollment_embedding) := by
  intro h
  induction h with
  | nil =>
    intro st st2 hap
    simp only [applyHistory] at hap
    cases hap
    exact ⟨rfl, rfl, rfl⟩
  | cons p rest ih =>
    intro st st2 hap
    obtain ⟨sid, files⟩ := p
    simp only [applyHistory, enroll_speaker] at hap
    cases hes : DeepSpeakerVerification.enroll getEmb st.verifier files with
    | error e => rw [hes] at hap; simp at hap
    | ok vp =>
      obtain ⟨v, success⟩ := vp
      rw [hes] at hap
      simp only [] at hap
      obtain ⟨hthv, hth, hemb⟩ := ih _ _ hap
      unfold DeepSpeakerVerification.enroll at hes
      by_cases hfe : files.isEmpty = true
      · rw [if_pos hfe] at hes
        have hv2 : v = st.verifier := by
          have h := hes
          simp only [Except.ok.injEq, Prod.mk.injEq] at h
          exact h.1.symm
        have hfm : (files.filterMap getEmb).isEmpty = true := by
          rw [List.isEmpty_iff] at hfe ⊢
          rw [hfe]
          rfl
        refine ⟨by rw [hthv, hv2], by rw [hth], ?_⟩
        rw [hemb, hv2]
        simp only [lastSuccessEmbeds]
        cases lastSuccessEmbeds getEmb rest with
        | some es => rfl
        | none => rw [if_pos hfm]
      · rw [if_neg hfe] at hes
        by_cases hfm : (files.filterMap getEmb).isEmpty = true
        · rw [if_pos hfm] at hes
          have hv2 : v = st.verifier := by
            simp only [Except.ok.injEq, Prod.mk.injEq] at hes
            exact hes.1.symm
          refine ⟨by rw [hthv, hv2], by rw [hth], ?_⟩
          rw [hemb, hv2]
          simp only [lastSuccessEmbeds]
          cases lastSuccessEmbeds getEmb rest with
          | some es => rfl
          | none => rw [if_pos hfm]
        · rw [if_neg hfm] at hes
          cases hm : npMean (files.filterMap getEmb) with
          | none => rw [hm] at hes; simp at hes
          | some m =>
            rw [hm] at hes
            simp only [Except.ok.injEq, Prod.mk.injEq] at hes
            have hv2 : v = { st.verifier with enrollment_embedding := some m } :=
              hes.1.symm
            refine ⟨by rw [hthv, hv2], by rw [hth], ?_⟩
            rw [hemb, hv2]
            simp only [lastSuccessEmbeds]
            cases lastSuccessEmbeds getEmb rest with
            | some es => rfl
            | none =>
              rw [if_neg hfm, ← hm]

/-- Claim C3, amended: (1) a successful `enroll_speaker` call overwrites the
single stored enrollment embedding with the mean of its sample embeddings,
while a FAILED call leaves the verifier untouched (the claim's "every call
overwrites" holds only for successful calls); (2) the score
`OpenSetIdentification.identify` returns is produced by the one `verify`
call against that single embedding, so any two states reached by call
histories with the same most recent successful enrollment yield the same
score for a fixed probe, regardless of all other roster entries; (3) the
speaker id returned on acceptance is the first roster entry with successful
status in insertion order, independent of the probe; (4) for
`ClosedSetIdentification.identify` the same score independence holds only
when the two rosters agree on whether ANY entry has successful status —
otherwise the fallback score `0.0` breaks it (the counterexample). -/
theorem C3_theorem :
    (∀ (getEmb : String → Option (List ℚ)) (st : TaskState) (sid : String)
       (files : List String) (st2 : TaskState) (b : Bool),
      enroll_speaker getEmb st sid files = .ok (st2, b) →
      (b = true →
        st2.verifier.enrollment_embedding = npMean (files.filterMap getEmb)) ∧
      (b = false → st2.verifier = st.verifier)) ∧
    (∀ (getEmb : String → Option (List ℚ)) (t : ℚ)
       (h1 h2 : List (String × List String)) (probe : String) (s1 s2 : TaskState)
       (r1 r2 : Option String) (sc1 sc2 : PyFloat),
      applyHistory getEmb (TaskState.init t) h1 = .ok s1 →
      applyHistory getEmb (TaskState.init t) h2 = .ok s2 →
      lastSuccessEmbeds getEmb h1 = lastSuccessEmbeds getEmb h2 →
      s1.enrolled_speakers ≠ [] → s2.enrolled_speakers ≠ [] →
      OpenSetIdentification.identify getEmb s1 probe = .ok (r1, sc1) →
      OpenSetIdentification.identify getEmb s2 probe = .ok (r2, sc2) →
      sc1 = sc2) ∧
    (∀ (getEmb : String → Option (List ℚ)) (st : TaskState) (probe sid : String)
       (sc : PyFloat),
      OpenSetIdentification.identify getEmb st probe = .ok (some sid, sc) →
      st.enrolled_speakers.find? (fun p => p.2) = some (sid, true)) ∧
    (∀ (getEmb : String → Option (List ℚ)) (t : ℚ)
       (h1 h2 : List (String × List String)) (probe : String) (s1 s2 : TaskState)
       (r1 r2 : String) (sc1 sc2 : PyFloat),
      applyHistory getEmb (TaskState.init t) h1 = .ok s1 →
      applyHistory getEmb (TaskState.init t) h2 = .ok s2 →
      lastSuccessEmbeds getEmb h1 = lastSuccessEmbeds getEmb h2 →
      s1.enrolled_speakers ≠ [] → s2.enrolled_speakers ≠ [] →
      s1.enrolled_speakers.any (fun p => p.2)
        = s2.enrolled_speakers.any (fun p => p.2) →
      ClosedSetIdentification.identify getEmb s1 probe = .ok (r1, sc1) →
      ClosedSetIdentification.identify getEmb s2 probe = .ok (r2, sc2) →
      sc1 = sc2) := by
  refine ⟨?_, ?_, ?_, ?_⟩
  · intro g st sid files st2 b hok
    unfold enroll_speaker at hok
    cases hes : DeepSpeakerVerification.enroll g st.verifier files with
    | error e => rw [hes] at hok; simp at hok
    | ok vp =>
      obtain ⟨v, success⟩ := vp
      rw [hes] at hok
      simp only [Except.ok.injEq, Prod.mk.injEq] at hok
      obtain ⟨hst2, hb⟩ := hok
      unfold DeepSpeakerVerification.enroll at hes
      by_cases hfe : files.isEmpty = true
      · rw [if_pos hfe] at hes
        simp only [Except.ok.injEq, Prod.mk.injEq] at hes
        constructor
        · intro hbt
          exact absurd ((hes.2.trans hb).trans hbt) (by simp)
        · intro _
          rw [← hst2]
          exact hes.1.symm
      · rw [if_neg hfe] at hes
        by_cases hfm : (files.filterMap g).isEmpty = true
        · rw [if_pos hfm] at hes
          simp only [Except.ok.injEq, Prod.mk.injEq] at hes
          constructor
          · intro hbt
            exact absurd ((hes.2.trans hb).trans hbt) (by simp)
          · intro _
            rw [← hst2]
            exact hes.1.symm
        · rw [if_neg hfm] at hes
          cases hm : npMean (files.filterMap g) with
          | none => rw [hm] at hes; simp at hes
          | some m =>
            rw [hm] at hes
            simp only [Except.ok.injEq, Prod.mk.injEq] at hes
            constructor
            · intro _
              rw [← hst2]
              show v.enrollment_embedding = some m
              rw [← hes.1]
            · intro hbf
              exact absurd ((hes.2.trans hb).trans hbf) (by simp)
  · intro g t h1 h2 probe s1 s2 r1 r2 sc1 sc2 hap1 hap2 hlast hne1 hne2 hid1 hid2
    obtain ⟨hth1, _, hemb1⟩ := applyHistory_state g h1 _ _ hap1
    obtain ⟨hth2, _, hemb2⟩ := applyHistory_state g h2 _ _ hap2
    rw [hlast] at hemb1
    have hembeq : s1.verifier.enrollment_embedding = s2.verifier.enrollment_embedding :=
      hemb1.trans hemb2.symm
    have htheq : s1.verifier.threshold = s2.verifier.threshold := by rw [hth1, hth2]
    have hvv : DeepSpeakerVerification.verify g s1.verifier probe
        = DeepSpeakerVerification.verify g s2.verifier probe := by
      unfold DeepSpeakerVerification.verify
      rw [hembeq, htheq]
    cases hv : DeepSpeakerVerification.verify g s2.verifier probe with
    | error e =>
      rw [hv] at hvv
      unfold OpenSetIdentification.identify at hid1
      simp only [isEmpty_false_of_ne_nil hne1, Bool.false_eq_true, if_false,
        hvv] at hid1
      exact absurd hid1 (by simp)
    | ok pr =>
      obtain ⟨acc, s⟩ := pr
      obtain ⟨ra, hra⟩ := OSI_identify_score g s1 probe acc s hne1 (by rw [hvv, hv])
      obtain ⟨rb, hrb⟩ := OSI_identify_score g s2 probe acc s hne2 hv
      rw [hra] at hid1
      rw [hrb] at hid2
      simp only [Except.ok.injEq, Prod.mk.injEq] at hid1 hid2
      rw [← hid1.2, ← hid2.2]
  · intro g st probe sid sc hid
    unfold OpenSetIdentification.identify at hid
    by_cases hE : st.enrolled_speakers.isEmpty = true
    · rw [if_pos hE] at hid
      simp at hid
    · rw [if_neg hE] at hid
      cases hv : DeepSpeakerVerification.verify g st.verifier probe with
      | error e => rw [hv] at hid; simp at hid
      | ok pr =>
        obtain ⟨acc, s⟩ := pr
        rw [hv] at hid
        simp only [] at hid
        by_cases hc : (acc && s.gtF (.lit st.threshold)) = true
        · rw [if_pos hc] at hid
          cases hf : st.enrolled_speakers.find? (fun p => p.2) with
          | none => rw [hf] at hid; simp at hid
          | some p =>
            rw [hf] at hid
            obtain ⟨a, b⟩ := p
            have hb : b = true := by simpa using List.find?_some hf
            subst hb
            have hpair : a = sid ∧ s = sc := by simpa using hid
            rw [hpair.1]
        · rw [if_neg hc] at hid
          simp at hid
  · intro g t h1 h2 probe s1 s2 r1 r2 sc1 sc2 hap1 hap2 hlast hne1 hne2 hany hid1 hid2
    obtain ⟨hth1, _, hemb1⟩ := applyHistory_state g h1 _ _ hap1
    obtain ⟨hth2, _, hemb2⟩ := applyHistory_state g h2 _ _ hap2
    rw [hlast] at hemb1
    have hembeq : s1.verifier.enrollment_embedding = s2.verifier.enrollment_embedding :=
      hemb1.trans hemb2.symm
    have htheq : s1.verifier.threshold = s2.verifier.threshold := by rw [hth1, hth2]
    have hvv : DeepSpeakerVerification.verify g s1.verifier probe
        = DeepSpeakerVerification.verify g s2.verifier probe := by
      unfold DeepSpeakerVerification.verify
      rw [hembeq, htheq]
    cases hv : DeepSpeakerVerification.verify g s2.verifier probe with
    | error e =>
      rw [hv] at hvv
      unfold ClosedSetIdentification.identify at hid1
      simp only [isEmpty_false_of_ne_nil hne1, Bool.false_eq_true, if_false,
        hvv] at hid1
      exact absurd hid1 (by simp)
    | ok pr =>
      obtain ⟨acc, s⟩ := pr
      obtain ⟨ra, hra⟩ := CSI_identify_score g s1 probe acc s hne1 (by rw [hvv, hv])
      obtain ⟨rb, hrb⟩ := CSI_identify_score g s2 probe acc s hne2 hv
      rw [hra] at hid1
      rw [hrb] at hid2
      simp only [Except.ok.injEq, Prod.mk.injEq] at hid1 hid2
      rw [← hid1.2, ← hid2.2, hany]

/-- Claim C3, counterexample to the claim as stated: two call histories with
the SAME most recent successful enrollment (speaker A enrolled from
"good.wav") — in the second history a subsequent FAILED re-enrollment of A
does not overwrite the stored embedding but flips A's roster status.  On the
same probe, `ClosedSetIdentification.identify` then returns score 1
(`cosVal 4 4 4`) in the first state but the fallback score `0.0` in the
second: the returned score is NOT independent of the other roster entries,
and not every `enroll_speaker` call overwrites the stored embedding. -/
theorem C3_counterexample :
    applyHistory (fun f => if f = "good.wav" then some [2] else none)
        (TaskState.init (1/2)) [("A", ["good.wav"])]
      = .ok ⟨[("A", true)], ⟨1/2, some [2]⟩, 1/2⟩ ∧
    applyHistory (fun f => if f = "good.wav" then some [2] else none)
        (TaskState.init (1/2)) [("A", ["good.wav"]), ("A", ["bad.wav"])]
      = .ok ⟨[("A", false)], ⟨1/2, some [2]⟩, 1/2⟩ ∧
    lastSuccessEmbeds (fun f => if f = "good.wav" then some [2] else none)
        [("A", ["good.wav"])]
      = lastSuccessEmbeds (fun f => if f = "good.wav" then some [2] else none)
        [("A", ["good.wav"]), ("A", ["bad.wav"])] ∧
    ClosedSetIdentification.identify
        (fun f => if f = "good.wav" then some [2] else none)
        ⟨[("A", true)], ⟨1/2, some [2]⟩, 1/2⟩ "good.wav"
      = .ok ("A", .cosVal 4 4 4) ∧
    ClosedSetIdentification.identify
        (fun f => if f = "good.wav" then some [2] else none)
        ⟨[("A", false)], ⟨1/2, some [2]⟩, 1/2⟩ "good.wav"
      = .ok ("A", .lit 0) ∧
    PyFloat.cosVal 4 4 4 ≠ PyFloat.lit 0 := by
  have hfmg : List.filterMap (fun f => if f = "good.wav" then some ([2] : List ℚ) else none)
      ["good.wav"] = [[2]] := by simp
  have hfmb : List.filterMap (fun f => if f = "good.wav" then some ([2] : List ℚ) else none)
      ["bad.wav"] = [] := by simp
  have hmean : npMean [[2]] = some [2] := by norm_num [npMean, vecSum, vecAdd]
  have henroll1 : enroll_speaker (fun f => if f = "good.wav" then some [2] else none)
      (TaskState.init (1/2)) "A" ["good.wav"]
      = .ok (⟨[("A", true)], ⟨1/2, some [2]⟩, 1/2⟩, true) := by
    simp [enroll_speaker, DeepSpeakerVerification.enroll, TaskState.init,
      DeepSpeakerVerification.init, hfmg, hmean, dictSet]
  have henroll2 : enroll_speaker (fun f => if f = "good.wav" then some [2] else none)
      ⟨[("A", true)], ⟨1/2, some [2]⟩, 1/2⟩ "A" ["bad.wav"]
      = .ok (⟨[("A", false)], ⟨1/2, some [2]⟩, 1/2⟩, false) := by
    simp [enroll_speaker, DeepSpeakerVerification.enroll, hfmb, dictSet]
  have hverify : DeepSpeakerVerification.verify
      (fun f => if f = "good.wav" then some [2] else none)
      (⟨1/2, some [2]⟩ : DeepSpeakerVerification) "good.wav"
      = .ok (true, .cosVal 4 4 4) := by
    have hcos : cosine_similarity [2] [2] = .ok (.cosVal 4 4 4) := by
      norm_num [cosine_similarity, npMulRow, sumSq]
    simp [DeepSpeakerVerification.verify, hcos]
    norm_num [PyFloat.gtF, cosGtLit]
  refine ⟨?_, ?_, ?_, ?_, ?_, ?_⟩
  · simp only [applyHistory, henroll1]
  · simp only [applyHistory, henroll1, henroll2]
  · simp [lastSuccessEmbeds, hfmg, hfmb]
  · unfold ClosedSetIdentification.identify
    rw [show (⟨[("A", true)], ⟨1/2, some [2]⟩, 1/2⟩ : TaskState).verifier
        = (⟨1/2, some [2]⟩ : DeepSpeakerVerification) from rfl]
    rw [hverify]
    norm_num [csiFold, PyFloat.gtF, cosGtLit]
  · unfold ClosedSetIdentification.identify
    rw [show (⟨[("A", false)], ⟨1/2, some [2]⟩, 1/2⟩ : TaskState).verifier
        = (⟨1/2, some [2]⟩ : DeepSpeakerVerification) from rfl]
    rw [hverify]
    norm_num [csiFold, PyFloat.gtF, cosGtLit]
  · intro h
    cases h

/-- Claim C3, witness for the amended theorem at concrete inputs: a failed
enrollment leaves the verifier unchanged; two single-enrollment histories
("A" vs "B" enrolled from the same sample) give equal identification scores
for a fixed probe in both the open-set and the closed-set task; and the id
the open-set task returns on acceptance is the roster's first
successfully-enrolled entry. -/
theorem C3_witness :
    (⟨[("A", false)], DeepSpeakerVerification.init 0, 0⟩ : TaskState).verifier
      = (TaskState.init 0).verifier ∧
    PyFloat.lit 0 = PyFloat.lit 0 ∧
    List.find? (fun p => p.2) ([("A", true)] : List (String × Bool))
      = some ("A", true) ∧
    PyFloat.cosVal 4 4 4 = PyFloat.cosVal 4 4 4 := by
  have hok : enroll_speaker (fun _ => none) (TaskState.init 0) "A" ["f.wav"]
      = .ok (⟨[("A", false)], DeepSpeakerVerification.init 0, 0⟩, false) := by
    simp [enroll_speaker, DeepSpeakerVerification.enroll, TaskState.init,
      DeepSpeakerVerification.init, dictSet]
  have hfmg : List.filterMap (fun f => if f = "good.wav" then some ([2] : List ℚ) else none)
      ["good.wav"] = [[2]] := by simp
  have hmean : npMean [[2]] = some [2] := by norm_num [npMean, vecSum, vecAdd]
  have henrollA : enroll_speaker (fun f => if f = "good.wav" then some [2] else none)
      (TaskState.init (1/2)) "A" ["good.wav"]
      = .ok (⟨[("A", true)], ⟨1/2, some [2]⟩, 1/2⟩, true) := by
    simp [enroll_speaker, DeepSpeakerVerification.enroll, TaskState.init,
      DeepSpeakerVerification.init, hfmg, hmean, dictSet]
  have henrollB : enroll_speaker (fun f => if f = "good.wav" then some [2] else none)
      (TaskState.init (1/2)) "B" ["good.wav"]
      = .ok (⟨[("B", true)], ⟨1/2, some [2]⟩, 1/2⟩, true) := by
    simp [enroll_speaker, DeepSpeakerVerification.enroll, TaskState.init,
      DeepSpeakerVerification.init, hfmg, hmean, dictSet]
  have happlyA : applyHistory (fun f => if f = "good.wav" then some [2] else none)
      (TaskState.init (1/2)) [("A", ["good.wav"])]
      = .ok ⟨[("A", true)], ⟨1/2, some [2]⟩, 1/2⟩ := by
    simp only [applyHistory, henrollA]
  have happlyB : applyHistory (fun f => if f = "good.wav" then some [2] else none)
      (TaskState.init (1/2)) [("B", ["good.wav"])]
      = .ok ⟨[("B", true)], ⟨1/2, some [2]⟩, 1/2⟩ := by
    simp only [applyHistory, henrollB]
  have hlastAB : lastSuccessEmbeds (fun f => if f = "good.wav" then some [2] else none)
        [("A", ["good.wav"])]
      = lastSuccessEmbeds (fun f => if f = "good.wav" then some [2] else none)
        [("B", ["good.wav"])] := by
    simp [lastSuccessEmbeds]
  have hverifyX : DeepSpeakerVerification.verify
      (fun f => if f = "good.wav" then some [2] else none)
      (⟨1/2, some [2]⟩ : DeepSpeakerVerification) "x.wav" = .ok (false, .lit 0) := by
    simp [DeepSpeakerVerification.verify]
  have hverify : DeepSpeakerVerification.verify
      (fun f => if f = "good.wav" then some [2] else none)
      (⟨1/2, some [2]⟩ : DeepSpeakerVerification) "good.wav"
      = .ok (true, .cosVal 4 4 4) := by
    have hcos : cosine_similarity [2] [2] = .ok (.cosVal 4 4 4) := by
      norm_num [cosine_similarity, npMulRow, sumSq]
    simp [DeepSpeakerVerification.verify, hcos]
    norm_num [PyFloat.gtF, cosGtLit]
  have hOSIxA : OpenSetIdentification.identify
      (fun f => if f = "good.wav" then some [2] else none)
      ⟨[("A", true)], ⟨1/2, some [2]⟩, 1/2⟩ "x.wav" = .ok (none, .lit 0) := by
    unfold OpenSetIdentification.identify
    rw [show (⟨[("A", true)], ⟨1/2, some [2]⟩, 1/2⟩ : TaskState).verifier
        = (⟨1/2, some [2]⟩ : DeepSpeakerVerification) from rfl]
    rw [hverifyX]
    norm_num
  have hOSIxB : OpenSetIdentification.identify
      (fun f => if f = "good.wav" then some [2] else none)
      ⟨[("B", true)], ⟨1/2, some [2]⟩, 1/2⟩ "x.wav" = .ok (none, .lit 0) := by
    unfold OpenSetIdentification.identify
    rw [show (⟨[("B", true)], ⟨1/2, some [2]⟩, 1/2⟩ : TaskState).verifier
        = (⟨1/2, some [2]⟩ : DeepSpeakerVerification) from rfl]
    rw [hverifyX]
    norm_num
  have hOSIgoodA : OpenSetIdentification.identify
      (fun f => if f = "good.wav" then some [2] else none)
      ⟨[("A", true)], ⟨1/2, some [2]⟩, 1/2⟩ "good.wav"
      = .ok (some "A", .cosVal 4 4 4) := by
    unfold OpenSetIdentification.identify
    rw [show (⟨[("A", true)], ⟨1/2, some [2]⟩, 1/2⟩ : TaskState).verifier
        = (⟨1/2, some [2]⟩ : DeepSpeakerVerification) from rfl]
    rw [hverify]
    norm_num [PyFloat.gtF, cosGtLit, List.find?]
  have hCSIA : ClosedSetIdentification.identify
      (fun f => if f = "good.wav" then some [2] else none)
      ⟨[("A", true)], ⟨1/2, some [2]⟩, 1/2⟩ "good.wav"
      = .ok ("A", .cosVal 4 4 4) := by
    unfold ClosedSetIdentification.identify
    rw [show (⟨[("A", true)], ⟨1/2, some [2]⟩, 1/2⟩ : TaskState).verifier
        = (⟨1/2, some [2]⟩ : DeepSpeakerVerification) from rfl]
    rw [hverify]
    norm_num [csiFold, PyFloat.gtF, cosGtLit]
  have hCSIB : ClosedSetIdentification.identify
      (fun f => if f = "good.wav" then some [2] else none)
      ⟨[("B", true)], ⟨1/2, some [2]⟩, 1/2⟩ "good.wav"
      = .ok ("B", .cosVal 4 4 4) := by
    unfold ClosedSetIdentification.identify
    rw [show (⟨[("B", true)], ⟨1/2, some [2]⟩, 1/2⟩ : TaskState).verifier
        = (⟨1/2, some [2]⟩ : DeepSpeakerVerification) from rfl]
    rw [hverify]
    norm_num [csiFold, PyFloat.gtF, cosGtLit]
  refine ⟨?_, ?_, ?_, ?_⟩
  · exact (C3_theorem.1 (fun _ => none) (TaskState.init 0) "A" ["f.wav"]
      ⟨[("A", false)], DeepSpeakerVerification.init 0, 0⟩ false hok).2 rfl
  · exact C3_theorem.2.1 (fun f => if f = "good.wav" then some [2] else none) (1/2)
      [("A", ["good.wav"])] [("B", ["good.wav"])] "x.wav"
      ⟨[("A", true)], ⟨1/2, some [2]⟩, 1/2⟩ ⟨[("B", true)], ⟨1/2, some [2]⟩, 1/2⟩
      none none (.lit 0) (.lit 0) happlyA happlyB hlastAB (by simp) (by simp)
      hOSIxA hOSIxB
  · exact C3_theorem.2.2.1 (fun f => if f = "good.wav" then some [2] else none)
      ⟨[("A", true)], ⟨1/2, some [2]⟩, 1/2⟩ "good.wav" "A" (.cosVal 4 4 4) hOSIgoodA
  · exact C3_theorem.2.2.2 (fun f => if f = "good.wav" then some [2] else none) (1/2)
      [("A", ["good.wav"])] [("B", ["good.wav"])] "good.wav"
      ⟨[("A", true)], ⟨1/2, some [2]⟩, 1/2⟩ ⟨[("B", true)], ⟨1/2, some [2]⟩, 1/2⟩
      "A" "B" (.cosVal 4 4 4) (.cosVal 4 4 4)
      happlyA happlyB hlastAB (by simp) (by simp) rfl hCSIA hCSIB
